import Mathlib

/-!
# Verification of `backend/schedulerd/scheduler.go`

A shallow embedding of the scheduler of `sensu-go`: the time window of a tick
(`Timeframe`), the interval clock (`SchedulerInterval`), the due-ness test
(`Task.ShouldRun`), the publication of a check request (`TaskRunner`), the
run loop of `Scheduler.Start`, `DoTaskAsync` with its wait group, and the
scheduler as a system of goroutines that `Scheduler.Stop` drains.

Conventions of the embedding.

* An instant (`time.Time`) is an `Int`: the nanoseconds since the Unix epoch.
  `time.Time` spans far more than 64 bits of nanoseconds, so instants are
  unbounded; `Time.UnixNano` reduces them to a signed 64-bit integer.
* A `time.Duration` is an `Int`: a number of nanoseconds.
* Conversions to `uint64` and `int64` are written out (`toUint64`, `toInt64`).
* A run-time panic (integer division by zero) is the result `none`.
* Functions of other packages that the file only calls
  (`messaging.SubscriptionTopic`, `MessageBus.Publish`, the state's asset
  lookup, `types.IsAssetIsRelevantToCheck`) are parameters.  So is the digest
  in `Task.ShouldRun`, for which `md5Sum` gives the function of the standard
  library.
-/

namespace Schedulerd

/-! ## Machine integers and time -/

/-- Conversion of an integer to Go's `uint64`: the value modulo `2 ^ 64`. -/
def toUint64 (x : Int) : Nat := (x % 2 ^ 64).toNat

/-- Conversion of an integer to Go's `int64`: two's complement wrap-around. -/
def toInt64 (x : Int) : Int := (x + 2 ^ 63) % 2 ^ 64 - 2 ^ 63

/-- The method `Time.UnixNano` of an instant `t` (nanoseconds since the epoch):
the nanoseconds since the epoch as an `int64`. -/
def Time.UnixNano (t : Int) : Int := toInt64 t

/-- The method `Time.Add`: the instant `t` moved by the duration `d`. -/
def Time.Add (t : Int) (d : Int) : Int := t + d

/-- The constant `time.Nanosecond`. -/
def Nanosecond : Int := 1

/-- The constant `time.Second`. -/
def Second : Int := 1000000000

/-- The constant `SchedulerInterval = 1 * time.Second` (the source gives the
constant and the clock type the same name; the constant is renamed here). -/
def SchedulerIntervalDuration : Int := 1 * Second

/-! ## Timeframe -/

/-- The struct `Timeframe`. -/
structure Timeframe where
  Start : Int
  End : Int
  deriving DecidableEq, Repr

/-- The method `Timeframe.Contains`. -/
def Timeframe.Contains (frame : Timeframe) (t : Int) : Bool :=
  let timeNano := Time.UnixNano t
  decide (timeNano ≥ Time.UnixNano frame.Start) && decide (timeNano < Time.UnixNano frame.End)

/-! ## The interval clock -/

/-- The struct `SchedulerInterval`, which embeds a `Timeframe` (the embedded
field carries the name of its type, as in `interval.Timeframe`). -/
structure SchedulerInterval where
  Timeframe : Timeframe
  deriving DecidableEq, Repr

/-- The method `SchedulerInterval.Start`; `now` is the reading of `time.Now()`. -/
def SchedulerInterval.Start (now : Int) : SchedulerInterval :=
  { Timeframe := { Start := now, End := now } }

/-- The duration `delta` computed by `SchedulerInterval.Wait`:
`SchedulerInterval + (start.UnixNano() % SchedulerInterval)`, with Go's
truncated remainder. -/
def waitDelta (start : Int) : Int :=
  SchedulerIntervalDuration + Int.tmod (Time.UnixNano start) SchedulerIntervalDuration

/-- Modelled from the spec: the identifier `timeUntilNextInterval` that
`SchedulerInterval.Wait` adds to the current time is declared nowhere in the
source.  The spec (section 4.1) computes the new end "as the next tick
boundary at or after `now` (aligned to the configured tick length, default 1
second)": the duration from `start` to the least multiple of
`SchedulerInterval` that is not before `start`. -/
def timeUntilNextInterval (start : Int) : Int := (-start) % SchedulerIntervalDuration

/-- The method `SchedulerInterval.Wait`; `start` is the reading of `time.Now()`.
The result is the new state of the clock and the duration `delta` given to
`time.Sleep`.  The end of the window is `start.Add(timeUntilNextInterval)`,
as in the source; the sleep lasts `delta`. -/
def SchedulerInterval.Wait (intv : SchedulerInterval) (start : Int) :
    SchedulerInterval × Int :=
  let delta := waitDelta start
  ({ Timeframe := { Start := intv.Timeframe.End,
                    End := Time.Add start (timeUntilNextInterval start) } }, delta)

/-! ## Checks and tasks -/

/-- The fields of `types.CheckConfig` that the scheduler reads.  `Interval` is
a Go `int`; `ShouldRun` uses it as a modulus on nanosecond counts. -/
structure CheckConfig where
  Name : String
  Interval : Int
  Organization : String
  Subscriptions : List String
  RuntimeAssets : List String
  deriving DecidableEq, Repr

/-- The struct `Task`. -/
structure Task where
  Timeframe : Timeframe
  Check : CheckConfig
  deriving DecidableEq, Repr

/-- The function `binary.LittleEndian.Uint64` on the first eight bytes of a
byte slice (a byte is a value below 256). -/
def LittleEndianUint64 (b : List Nat) : Nat :=
  b.getD 0 0 % 256 + (b.getD 1 0 % 256) * 2 ^ 8 + (b.getD 2 0 % 256) * 2 ^ 16
    + (b.getD 3 0 % 256) * 2 ^ 24 + (b.getD 4 0 % 256) * 2 ^ 32
    + (b.getD 5 0 % 256) * 2 ^ 40 + (b.getD 6 0 % 256) * 2 ^ 48
    + (b.getD 7 0 % 256) * 2 ^ 56

/-! ## MD5

The digest `md5.Sum` of Go's standard library (RFC 1321), on lists of bytes.
`Task.ShouldRun` below takes the digest function as a parameter, so that the
theorems about it hold for every digest function; `md5Sum` is the function
the code calls. -/

/-- The per-round shift amounts of MD5. -/
def md5.shifts : List Nat :=
  [7, 12, 17, 22, 7, 12, 17, 22, 7, 12, 17, 22, 7, 12, 17, 22,
   5, 9, 14, 20, 5, 9, 14, 20, 5, 9, 14, 20, 5, 9, 14, 20,
   4, 11, 16, 23, 4, 11, 16, 23, 4, 11, 16, 23, 4, 11, 16, 23,
   6, 10, 15, 21, 6, 10, 15, 21, 6, 10, 15, 21, 6, 10, 15, 21]

/-- The per-round additive constants of MD5. -/
def md5.consts : List Nat :=
  [0xd76aa478, 0xe8c7b756, 0x242070db, 0xc1bdceee, 0xf57c0faf, 0x4787c62a, 0xa8304613, 0xfd469501,
   0x698098d8, 0x8b44f7af, 0xffff5bb1, 0x895cd7be, 0x6b901122, 0xfd987193, 0xa679438e, 0x49b40821,
   0xf61e2562, 0xc040b340, 0x265e5a51, 0xe9b6c7aa, 0xd62f105d, 0x02441453, 0xd8a1e681, 0xe7d3fbc8,
   0x21e1cde6, 0xc33707d6, 0xf4d50d87, 0x455a14ed, 0xa9e3e905, 0xfcefa3f8, 0x676f02d9, 0x8d2a4c8a,
   0xfffa3942, 0x8771f681, 0x6d9d6122, 0xfde5380c, 0xa4beea44, 0x4bdecfa9, 0xf6bb4b60, 0xbebfbc70,
   0x289b7ec6, 0xeaa127fa, 0xd4ef3085, 0x04881d05, 0xd9d4d039, 0xe6db99e5, 0x1fa27cf8, 0xc4ac5665,
   0xf4292244, 0x432aff97, 0xab9423a7, 0xfc93a039, 0x655b59c3, 0x8f0ccc92, 0xffeff47d, 0x85845dd1,
   0x6fa87e4f, 0xfe2ce6e0, 0xa3014314, 0x4e0811a1, 0xf7537e82, 0xbd3af235, 0x2ad7d2bb, 0xeb86d391]

/-- Rotation to the left of a 32-bit word. -/
def md5.rotl (x c : Nat) : Nat := ((x <<< c) ||| (x >>> (32 - c))) % 2 ^ 32

/-- Complement of a 32-bit word. -/
def md5.not32 (x : Nat) : Nat := x ^^^ 0xffffffff

/-- The `n` low bytes of `x`, least significant first. -/
def md5.leBytes (n x : Nat) : List Nat := (List.range n).map (fun i => x / 256 ^ i % 256)

/-- The 32-bit word made of the first four bytes of `b`, least significant first. -/
def md5.leWord (b : List Nat) : Nat :=
  b.getD 0 0 + b.getD 1 0 * 2 ^ 8 + b.getD 2 0 * 2 ^ 16 + b.getD 3 0 * 2 ^ 24

/-- The padding of MD5: the bit 1, zeros up to 56 bytes modulo 64, and the
length of the message in bits as eight bytes. -/
def md5.pad (msg : List Nat) : List Nat :=
  msg ++ [0x80] ++ List.replicate ((119 - msg.length % 64) % 64) 0
    ++ md5.leBytes 8 (msg.length * 8)

/-- The four 32-bit words of the state of MD5. -/
structure md5.State where
  a : Nat
  b : Nat
  c : Nat
  d : Nat
  deriving DecidableEq, Repr

/-- Operation `i` (of 64) of MD5 on the sixteen words `m` of a block. -/
def md5.step (m : List Nat) (s : md5.State) (i : Nat) : md5.State :=
  let f := if i < 16 then (s.b &&& s.c) ||| (md5.not32 s.b &&& s.d)
    else if i < 32 then (s.d &&& s.b) ||| (md5.not32 s.d &&& s.c)
    else if i < 48 then s.b ^^^ s.c ^^^ s.d
    else s.c ^^^ (s.b ||| md5.not32 s.d)
  let g := if i < 16 then i else if i < 32 then (5 * i + 1) % 16
    else if i < 48 then (3 * i + 5) % 16 else (7 * i) % 16
  let f2 := (f + s.a + md5.consts.getD i 0 + m.getD g 0) % 2 ^ 32
  { a := s.d, b := (s.b + md5.rotl f2 (md5.shifts.getD i 0)) % 2 ^ 32, c := s.b, d := s.c }

/-- The compression of one block of 64 bytes. -/
def md5.block (s : md5.State) (chunk : List Nat) : md5.State :=
  let m := (List.range 16).map (fun j => md5.leWord (chunk.drop (4 * j)))
  let r := (List.range 64).foldl (md5.step m) s
  { a := (s.a + r.a) % 2 ^ 32, b := (s.b + r.b) % 2 ^ 32,
    c := (s.c + r.c) % 2 ^ 32, d := (s.d + r.d) % 2 ^ 32 }

/-- The compression of the first `n` blocks of a list of bytes. -/
def md5.blocks : Nat → List Nat → md5.State → md5.State
  | 0, _, s => s
  | n + 1, bytes, s => md5.blocks n (bytes.drop 64) (md5.block s (bytes.take 64))

/-- The function `md5.Sum`: the sixteen bytes of the MD5 digest of a message. -/
def md5.Sum (msg : List Nat) : List Nat :=
  let p := md5.pad msg
  let s := md5.blocks (p.length / 64) p
    { a := 0x67452301, b := 0xefcdab89, c := 0x98badcfe, d := 0x10325476 }
  md5.leBytes 4 s.a ++ md5.leBytes 4 s.b ++ md5.leBytes 4 s.c ++ md5.leBytes 4 s.d

/-- The conversion `[]byte(name)`: the bytes of the UTF-8 encoding of a string. -/
def stringBytes (name : String) : List Nat :=
  name.data.flatMap (fun c => (String.utf8EncodeChar c).map UInt8.toNat)

/-- The digest `md5.Sum([]byte(name))` of a check name. -/
def md5Sum (name : String) : List Nat := md5.Sum (stringBytes name)

/-- The execution splay of a check name: the first eight bytes of its digest
as a little-endian `uint64`.  The parameter `md5` stands for
`md5.Sum([]byte(name))`; the code's function is `md5Sum`. -/
def splayOf (md5 : String → List Nat) (name : String) : Nat :=
  LittleEndianUint64 (md5 name)

/-- The local `offset` of `Task.ShouldRun`: `(splay - t) % uint64(interval)` in
unsigned 64-bit arithmetic, for a non-zero modulus `m = uint64(interval)`. -/
def shouldRunOffset (splay t m : Nat) : Nat :=
  ((splay + 2 ^ 64 - t) % 2 ^ 64) % m

/-- The method `Task.ShouldRun`.  The result is `none` when the remainder
`% uint64(interval)` divides by zero, which panics.  The source adds
`timeUntilNextRun` to `t`; as `Contains` only reads `UnixNano`, adding it to
the start of the timeframe gives the same result. -/
def Task.ShouldRun (md5 : String → List Nat) (task : Task) : Option Bool :=
  let interval := task.Check.Interval
  let splay := splayOf md5 task.Check.Name
  let t := toUint64 (Time.UnixNano task.Timeframe.Start)
  if toUint64 interval = 0 then none
  else
    let offset := shouldRunOffset splay t (toUint64 interval)
    let timeUntilNextRun : Int := Int.tdiv (toInt64 offset) Nanosecond
    some (task.Timeframe.Contains (Time.Add task.Timeframe.Start timeUntilNextRun))

/-- The due-ness test of the spec (section 4.2, `DueEvaluator.IsDue`), written
from the spec's words over the value `hash` of the stable hash: the phase,
the start of the cycle, the candidate run instant and its membership of
`[Start, End)`.  `mod` is the remainder in `[0, interval)`. -/
def specIsDue (hash : Int) (interval : Int) (tf : Timeframe) : Bool :=
  let phase := hash % interval
  let cycleStart := tf.Start - ((tf.Start - phase) % interval)
  let candidate := if cycleStart ≥ tf.Start then cycleStart else cycleStart + interval
  decide (tf.Start ≤ candidate) && decide (candidate < tf.End)

/-- The hash value that `Task.ShouldRun` in effect reduces modulo the interval:
the splay itself while the start of the timeframe is not after it, and the
splay plus `2 ^ 64` once the unsigned subtraction `splay - t` wraps around. -/
def effectiveHash (splay : Nat) (start : Int) : Int :=
  if start ≤ splay then splay else splay + 2 ^ 64

/-- Whether a list of timeframes is a contiguous run: each one starts where
the one before it ends. -/
def contiguous (tfs : List Timeframe) : Prop :=
  List.Chain' (fun a b => b.Start = a.End) tfs

/-- The span of time covered by a run of timeframes: the sum of their widths
(for a contiguous run, the end of the last one minus the start of the first). -/
def runSpan (tfs : List Timeframe) : Int :=
  (tfs.map (fun tf => tf.End - tf.Start)).sum

/-- The number of timeframes of a run in which `Task.ShouldRun` returns true
for the check. -/
def dueCount (md5 : String → List Nat) (check : CheckConfig) (tfs : List Timeframe) : Nat :=
  tfs.countP (fun tf => decide (Task.ShouldRun md5 ⟨tf, check⟩ = some true))

/-- The states of the clock after each call of a sequence of calls of `Wait`;
`nows` lists the readings of `time.Now()` of the calls. -/
def waitStates (intv : SchedulerInterval) : List Int → List SchedulerInterval
  | [] => []
  | now :: rest => (intv.Wait now).1 :: waitStates (intv.Wait now).1 rest

/-- A clock that never runs backwards and on which each `Wait` sleeps for the
duration it computed: every reading is at or after `wake`, the instant at
which the previous sleep (or the call of `Start`) ended. -/
def clockSleeps (wake : Int) : List Int → Prop
  | [] => True
  | now :: rest => wake ≤ now ∧ clockSleeps (now + waitDelta now) rest

/-! ## Building and publishing a check request -/

/-- An asset (`types.Asset`); the scheduler reads none of its fields. -/
structure Asset where
  Name : String
  deriving DecidableEq, Repr

/-- The struct `types.CheckRequest`, as `buildRequest` fills it. -/
structure CheckRequest where
  Config : CheckConfig
  ExpandedAssets : List Asset
  deriving DecidableEq, Repr

/-- The interface `messaging.MessageBus`: `Publish` on a bus in state `β`
returns the next state of the bus and an error, `none` for `nil`. -/
structure MessageBus (β : Type) where
  Publish : β → String → CheckRequest → β × Option String

/-- Modelled from the spec: the state snapshot `SchedulerState`, declared
outside this file.  It gives the sequence of checks (`Checks()`) and the
assets of an organization (`GetAssetsInOrg`). -/
structure SchedulerState where
  Checks : List CheckConfig
  GetAssetsInOrg : String → List Asset

/-- The struct `TaskContext`. -/
structure TaskContext (β : Type) where
  State : SchedulerState
  MessageBus : MessageBus β

/-- The struct `TaskRunner`. -/
structure TaskRunner (β : Type) where
  Task : Task
  Ctx : TaskContext β

/-- The result of `buildRequest`: the request, and the organizations for which
the state's asset lookup was called, in order. -/
structure BuildResult where
  request : CheckRequest
  lookups : List String
  deriving DecidableEq, Repr

/-- The method `TaskRunner.buildRequest`; `IsAssetIsRelevantToCheck` is the
predicate of package `types`. -/
def TaskRunner.buildRequest {β : Type} (IsAssetIsRelevantToCheck : CheckConfig → Asset → Bool)
    (run : TaskRunner β) : BuildResult :=
  let check := run.Task.Check
  let request : CheckRequest := { Config := check, ExpandedAssets := [] }
  if check.RuntimeAssets.length = 0 then { request := request, lookups := [] }
  else
    let allAssets := run.Ctx.State.GetAssetsInOrg check.Organization
    { request := allAssets.foldl
        (fun req asset =>
          if IsAssetIsRelevantToCheck check asset then
            { req with ExpandedAssets := req.ExpandedAssets ++ [asset] }
          else req)
        request,
      lookups := [check.Organization] }

/-- The state of the loop of `publishRequest`: the bus, the calls of `Publish`
made so far (topic and request, in order) and the local variable `err`. -/
structure PublishState (β : Type) where
  bus : β
  calls : List (String × CheckRequest)
  err : Option String

/-- One iteration of the loop of `publishRequest`.  The guard of the `if` in
the source is `err != nil`: it tests the accumulated `err`, not `pubErr`. -/
def publishStep {β : Type} (SubscriptionTopic : String → String → String)
    (bus : MessageBus β) (check : CheckConfig) (request : CheckRequest)
    (st : PublishState β) (sub : String) : PublishState β :=
  let topic := SubscriptionTopic check.Organization sub
  let res := bus.Publish st.bus topic request
  let pubErr := res.2
  { bus := res.1,
    calls := st.calls ++ [(topic, request)],
    err := if st.err.isSome then pubErr else st.err }

/-- The method `TaskRunner.publishRequest` on a bus in state `b`;
`SubscriptionTopic` is the function of package `messaging`.  The field `err`
of the result is the error returned. -/
def TaskRunner.publishRequest {β : Type} (SubscriptionTopic : String → String → String)
    (run : TaskRunner β) (b : β) (request : CheckRequest) : PublishState β :=
  let check := run.Task.Check
  check.Subscriptions.foldl (publishStep SubscriptionTopic run.Ctx.MessageBus check request)
    { bus := b, calls := [], err := none }

/-- The method `TaskRunner.Run`. -/
def TaskRunner.Run {β : Type} (SubscriptionTopic : String → String → String)
    (IsAssetIsRelevantToCheck : CheckConfig → Asset → Bool)
    (run : TaskRunner β) (b : β) : PublishState β :=
  let request := (run.buildRequest IsAssetIsRelevantToCheck).request
  run.publishRequest SubscriptionTopic b request

/-- A message bus that keeps the calls of `Publish` it has received (topic and
request, in order) as its state.  The result of a call is given by `outcome`
from the calls received before it and its topic, so that the calls can
succeed and fail in any pattern. -/
def recordingBus (outcome : List (String × CheckRequest) → String → Option String) :
    MessageBus (List (String × CheckRequest)) :=
  { Publish := fun received topic request =>
      (received ++ [(topic, request)], outcome received topic) }

/-- A message bus on which every `Publish` fails. -/
def failingBus : MessageBus Unit :=
  { Publish := fun b _ _ => (b, some "message bus is closed") }

/-! ## One tick of the run loop -/

/-- The outcome of the loop over the checks of one tick: the tasks handed to
`DoTaskAsync`, in order, and whether the loop ended in a panic. -/
structure TickResult where
  spawned : List Task
  panicked : Bool
  deriving DecidableEq, Repr

/-- The loop `for _, check := range state.Checks()` of `Scheduler.Start` on the
timeframe of the tick; `spawned` lists the tasks spawned so far.  Nothing in
the loop recovers from a panic of `ShouldRun`, which ends the loop. -/
def tickChecks (md5 : String → List Nat) (tf : Timeframe) :
    List CheckConfig → List Task → TickResult
  | [], spawned => { spawned := spawned, panicked := false }
  | check :: rest, spawned =>
    let task : Task := { Check := check, Timeframe := tf }
    match task.ShouldRun md5 with
    | none => { spawned := spawned, panicked := true }
    | some true => tickChecks md5 tf rest (spawned ++ [task])
    | some false => tickChecks md5 tf rest spawned

/-- The tasks of the due checks of a list, in the order of the list. -/
def dueTasks (md5 : String → List Nat) (tf : Timeframe) (checks : List CheckConfig) :
    List Task :=
  (checks.filter (fun check =>
    decide (Task.ShouldRun md5 { Check := check, Timeframe := tf } = some true))).map
    (fun check => { Check := check, Timeframe := tf })

/-! ## Concrete checks and timeframes -/

/-- The check `check-cpu` with an interval of 60 s, in nanoseconds. -/
def checkCpu : CheckConfig :=
  { Name := "check-cpu", Interval := 60000000000, Organization := "default",
    Subscriptions := ["linux", "prod"], RuntimeAssets := [] }

/-- The check `cpu-check` with an interval of 60 s, in nanoseconds. -/
def cpuCheck : CheckConfig :=
  { Name := "cpu-check", Interval := 60000000000, Organization := "default",
    Subscriptions := ["linux", "prod"], RuntimeAssets := [] }

/-- A window of one second in November 2023. -/
def window2023 : Timeframe := { Start := 1700000023942206841, End := 1700000024942206841 }

/-- Two contiguous windows of one second in November 2023. -/
def run2023 : List Timeframe :=
  [{ Start := 1700000057000000000, End := 1700000058000000000 },
   { Start := 1700000058000000000, End := 1700000059000000000 }]

/-- Two contiguous windows, of 30 s and of 4 s, the first of which starts at
the instant 2041599884789666400 ns (in 2034), the splay of `cpu-check`. -/
def runAcrossSplay : List Timeframe :=
  [{ Start := 2041599884789666400, End := 2041599914789666400 },
   { Start := 2041599914789666400, End := 2041599918789666400 }]

/-- A check with an interval of 60 s whose phase is exactly 23 s: the MD5 digest
of `check-981948274` is `006e3087e970d22a261992dd65b6a556`, its splay is
3085652843000000000, and 3085652843000000000 mod 60000000000 is 23000000000. -/
def phase23Check : CheckConfig :=
  { Name := "check-981948274", Interval := 60000000000, Organization := "default",
    Subscriptions := ["linux", "prod"], RuntimeAssets := [] }

/-- The check `cpu-check` with the interval zero. -/
def zeroIntervalCheck : CheckConfig :=
  { Name := "cpu-check", Interval := 0, Organization := "default",
    Subscriptions := ["linux", "prod"], RuntimeAssets := [] }

/-- The check `cpu-check` with the interval `-1`. -/
def negativeIntervalCheck : CheckConfig :=
  { Name := "cpu-check", Interval := -1, Organization := "default",
    Subscriptions := ["linux", "prod"], RuntimeAssets := [] }

/-- The window of one second that starts at the splay of `cpu-check`. -/
def windowAtSplay : Timeframe := { Start := 2041599884789666400, End := 2041599885789666400 }

/-- The check `check-cpu` in another organization, with other subscriptions
and a runtime asset. -/
def checkCpuElsewhere : CheckConfig :=
  { Name := "check-cpu", Interval := 60000000000, Organization := "acme",
    Subscriptions := ["windows"], RuntimeAssets := ["ruby"] }

/-- The window of one second that holds the instant 33.709551616 s after the
start of `window2023`; `check-cpu` is due in it. -/
def dueWindow2023 : Timeframe := { Start := 1700000057000000000, End := 1700000058000000000 }

/-- A topic function: organization and subscription joined by a colon. -/
def sampleTopic (org sub : String) : String := org ++ ":" ++ sub

/-- A task runner for `cpu-check` on a bus on which every `Publish` fails. -/
def failingRunner : TaskRunner Unit :=
  { Task := { Timeframe := windowAtSplay, Check := cpuCheck },
    Ctx := { State := { Checks := [cpuCheck], GetAssetsInOrg := fun _ => [] },
             MessageBus := failingBus } }

/-! ## One iteration of the run loop -/

/-- The checks on which the loop over `state.Checks()` calls `ShouldRun`, in
order: all of them, or those up to the first one on which it panics. -/
def tickEvaluated (md5 : String → List Nat) (tf : Timeframe) :
    List CheckConfig → List CheckConfig
  | [] => []
  | check :: rest =>
    match Task.ShouldRun md5 { Check := check, Timeframe := tf } with
    | none => [check]
    | some _ => check :: tickEvaluated md5 tf rest

/-- What the goroutine of `Scheduler.Start` has done so far: the clock
`interval`, the number of calls of `StateManager.State()`, the checks on which
`ShouldRun` was called and the tasks handed to `DoTaskAsync`. -/
structure LoopState where
  interval : SchedulerInterval
  snapshots : Nat
  evaluated : List CheckConfig
  spawned : List Task
  deriving DecidableEq, Repr

/-- How an iteration of the `for` loop of `Scheduler.Start` ends: it goes on to
the next iteration, the goroutine returns (`case <-schedulerPtr.stopping`), or
`ShouldRun` panics. -/
inductive LoopStatus where
  | running
  | returned
  | panicked
  deriving DecidableEq, Repr

/-- One iteration of the `for` loop of `Scheduler.Start`: `interval.Wait()`,
then the `select`.  `now` is the reading of `time.Now()` in `Wait`, `stopping`
tells whether the channel `stopping` is closed when the `select` runs (a
closed channel is ready, so `default` is not taken), and `state` is what
`StateManager.State()` returns if it is called.  The source calls
`DoTaskAsync(task, schedulerPtr.waitGroup)`; the task context it built is the
missing argument. -/
def runLoopIteration (md5 : String → List Nat) (st : LoopState) (now : Int) (stopping : Bool)
    (state : SchedulerState) : LoopState × LoopStatus :=
  let interval := (st.interval.Wait now).1
  if stopping then ({ st with interval := interval }, LoopStatus.returned)
  else
    let checks := state.Checks
    let res := tickChecks md5 interval.Timeframe checks []
    ({ interval := interval,
       snapshots := st.snapshots + 1,
       evaluated := st.evaluated ++ tickEvaluated md5 interval.Timeframe checks,
       spawned := st.spawned ++ res.spawned },
     if res.panicked then LoopStatus.panicked else LoopStatus.running)

/-- The `for` loop of `Scheduler.Start` over a list of iterations, each given
by the reading of the clock, the state of the channel `stopping` at the
`select` and the state that `StateManager.State()` would return.  The loop
ends when an iteration returns or panics; the iterations left are not run. -/
def runLoop (md5 : String → List Nat) (st : LoopState) :
    List (Int × Bool × SchedulerState) → LoopState × LoopStatus
  | [] => (st, LoopStatus.running)
  | (now, stopping, state) :: rest =>
    match runLoopIteration md5 st now stopping state with
    | (st2, LoopStatus.running) => runLoop md5 st2 rest
    | (st2, status) => (st2, status)

/-! ## The wait group and `DoTaskAsync` -/

/-- The counter of a `sync.WaitGroup`. -/
structure WaitGroup where
  counter : Int
  deriving DecidableEq, Repr

/-- The method `WaitGroup.Add`. -/
def WaitGroup.Add (wg : WaitGroup) (delta : Int) : WaitGroup :=
  { counter := wg.counter + delta }

/-- The method `WaitGroup.Done`: `Add(-1)`. -/
def WaitGroup.Done (wg : WaitGroup) : WaitGroup := wg.Add (-1)

/-- How the call `task.Run(ctx)` ends: it returns `nil` or an error, or it
panics (as a call of `Publish` on a nil `MessageBus` does). -/
inductive RunOutcome where
  | returned (err : Option String)
  | panicked
  deriving DecidableEq, Repr

/-- The function `DoTaskAsync` up to its `go` statement: `wg.Add(1)`. -/
def DoTaskAsync (wg : WaitGroup) : WaitGroup := wg.Add 1

/-- The goroutine of `DoTaskAsync`, `task.Run(ctx)` followed by `wg.Done()`,
on the wait group, given how `Run` ends.  The error of `Run` is dropped.
`wg.Done()` is not deferred: a panic of `Run` leaves the goroutine before it. -/
def DoTaskAsync.goroutine (outcome : RunOutcome) (wg : WaitGroup) : WaitGroup :=
  match outcome with
  | RunOutcome.returned _ => wg.Done
  | RunOutcome.panicked => wg

/-- The goroutine of `Scheduler.Start` on the wait group when it ends:
`defer wg.Done()` runs on a return and on a panic alike. -/
def Scheduler.Start.goroutineEnd (wg : WaitGroup) : WaitGroup := wg.Done

/-! ## The scheduler as a system of goroutines

The run loop, the tasks spawned by `DoTaskAsync` and the caller of
`Scheduler.Stop` run concurrently.  A state of the system records where each
of them is; an event is one step of one of them, and `System.step` gives the
state after an event, or `none` when the event cannot happen in the state. -/

/-- Where the goroutine of `Scheduler.Start` is: in or before
`interval.Wait()`, at the `select`, in the loop over the checks of the
snapshot (with the checks left), or gone. -/
inductive LoopPc where
  | waiting
  | selecting
  | ranging (checks : List CheckConfig)
  | exited
  deriving DecidableEq, Repr

/-- Where the caller of `Scheduler.Stop` is: before the call, in
`waitGroup.Wait()` after `close(stopping)`, or back from `Stop`. -/
inductive StopPc where
  | notCalled
  | waiting
  | returned
  deriving DecidableEq, Repr

/-- A goroutine of `DoTaskAsync` in `task.Run(ctx)`: its check and the
subscriptions for which `publishRequest` has not yet called `Publish`. -/
structure TaskThread where
  check : CheckConfig
  remaining : List String
  deriving DecidableEq, Repr

/-- The state of the scheduler after `Scheduler.Start`: the clock, whether the
channel `stopping` is closed, the wait group, the three kinds of threads, the
number of calls of `Publish` made, and whether an unrecovered panic has ended
the process. -/
structure System where
  interval : SchedulerInterval
  stopping : Bool
  waitGroup : WaitGroup
  loop : LoopPc
  tasks : List TaskThread
  stop : StopPc
  publishes : Nat
  crashed : Bool
  deriving DecidableEq, Repr

/-- The steps of the threads.  `loopSelect checks` is the `select`, with the
checks of the snapshot that `StateManager.State()` gives if `default` is
taken; `loopRange` is one round of the loop over the checks, or its end;
`taskPublish i`, `taskDone i` and `taskPanic i` are steps of the `i`-th
running task. -/
inductive Event where
  | loopWait (now : Int)
  | loopSelect (checks : List CheckConfig)
  | loopRange
  | taskPublish (i : Nat)
  | taskDone (i : Nat)
  | taskPanic (i : Nat)
  | stopClose
  | stopReturn
  deriving DecidableEq, Repr

/-- The state of the system when `Scheduler.Start` returns, `now` being the
reading of the clock in `interval.Start()`: the wait group counts the run
loop (`wg.Add(1)`). -/
def System.init (now : Int) : System :=
  { interval := SchedulerInterval.Start now,
    stopping := false,
    waitGroup := { counter := 1 },
    loop := LoopPc.waiting,
    tasks := [],
    stop := StopPc.notCalled,
    publishes := 0,
    crashed := false }

/-- The state after an event, or `none` when the event cannot happen.  After
an unrecovered panic nothing happens any more.  `waitGroup.Wait()` returns
only when the counter is zero. -/
def System.step (md5 : String → List Nat) (s : System) : Event → Option System
  | Event.loopWait now =>
    if s.crashed then none
    else match s.loop with
      | LoopPc.waiting =>
        some { s with interval := (s.interval.Wait now).1, loop := LoopPc.selecting }
      | _ => none
  | Event.loopSelect checks =>
    if s.crashed then none
    else match s.loop with
      | LoopPc.selecting =>
        if s.stopping then
          some { s with loop := LoopPc.exited,
                        waitGroup := Scheduler.Start.goroutineEnd s.waitGroup }
        else some { s with loop := LoopPc.ranging checks }
      | _ => none
  | Event.loopRange =>
    if s.crashed then none
    else match s.loop with
      | LoopPc.ranging [] => some { s with loop := LoopPc.waiting }
      | LoopPc.ranging (check :: rest) =>
        match Task.ShouldRun md5 { Check := check, Timeframe := s.interval.Timeframe } with
        | none =>
          some { s with loop := LoopPc.exited,
                        waitGroup := Scheduler.Start.goroutineEnd s.waitGroup,
                        crashed := true }
        | some true =>
          some { s with loop := LoopPc.ranging rest,
                        waitGroup := DoTaskAsync s.waitGroup,
                        tasks := s.tasks ++ [{ check := check,
                                               remaining := check.Subscriptions }] }
        | some false => some { s with loop := LoopPc.ranging rest }
      | _ => none
  | Event.taskPublish i =>
    if s.crashed then none
    else match s.tasks.get? i with
      | some { check := check, remaining := _ :: rest } =>
        some { s with tasks := s.tasks.set i { check := check, remaining := rest },
                      publishes := s.publishes + 1 }
      | _ => none
  | Event.taskDone i =>
    if s.crashed then none
    else match s.tasks.get? i with
      | some { check := _, remaining := [] } =>
        some { s with tasks := s.tasks.eraseIdx i,
                      waitGroup := DoTaskAsync.goroutine (RunOutcome.returned none) s.waitGroup }
      | _ => none
  | Event.taskPanic i =>
    if s.crashed then none
    else match s.tasks.get? i with
      | some _ =>
        some { s with tasks := s.tasks.eraseIdx i,
                      waitGroup := DoTaskAsync.goroutine RunOutcome.panicked s.waitGroup,
                      crashed := true }
      | none => none
  | Event.stopClose =>
    if s.crashed then none
    else match s.stop with
      | StopPc.notCalled => some { s with stopping := true, stop := StopPc.waiting }
      | _ => none
  | Event.stopReturn =>
    if s.crashed then none
    else match s.stop with
      | StopPc.waiting =>
        if s.waitGroup.counter = 0 then some { s with stop := StopPc.returned } else none
      | _ => none

/-- The state after a sequence of events, or `none` when one of them cannot
happen. -/
def System.run (md5 : String → List Nat) (s : System) : List Event → Option System
  | [] => some s
  | e :: rest =>
    match System.step md5 s e with
    | none => none
    | some s2 => System.run md5 s2 rest

/-- The states that the system can reach after `Scheduler.Start`. -/
def System.Reachable (md5 : String → List Nat) (s : System) : Prop :=
  ∃ (now : Int) (events : List Event), System.run md5 (System.init now) events = some s

/-- The invariant of the system: while no panic has ended the process, the
counter of the wait group is the number of the goroutines that are still to
call `wg.Done()` (the run loop, if it has not gone, and the running tasks);
and `Stop` has returned only with no panic and the counter at zero. -/
def System.Invariant (s : System) : Prop :=
  (s.crashed = false →
    s.waitGroup.counter = (if s.loop = LoopPc.exited then 0 else 1) + s.tasks.length) ∧
  (s.stop = StopPc.returned → s.crashed = false ∧ s.waitGroup.counter = 0)

/-- The local `timeUntilNextRun` of `Task.ShouldRun`, for a check whose
interval is not zero. -/
def Task.timeUntilNextRun (md5 : String → List Nat) (task : Task) : Int :=
  let splay := splayOf md5 task.Check.Name
  let t := toUint64 (Time.UnixNano task.Timeframe.Start)
  let offset := shouldRunOffset splay t (toUint64 task.Check.Interval)
  Int.tdiv (toInt64 offset) Nanosecond

/-! ## More concrete checks and states -/

/-- The check `check-cpu` with two runtime assets declared. -/
def checkCpuWithAssets : CheckConfig :=
  { Name := "check-cpu", Interval := 60000000000, Organization := "default",
    Subscriptions := ["linux", "prod"], RuntimeAssets := ["ruby", "plugins"] }

/-- A state whose organization `default` has three assets. -/
def sampleState : SchedulerState :=
  { Checks := [zeroIntervalCheck, checkCpu],
    GetAssetsInOrg := fun org =>
      if org = "default" then [{ Name := "ruby" }, { Name := "python" }, { Name := "plugins" }]
      else [] }

/-- A relevance predicate: the asset is one of those the check declares. -/
def declaredAsset (check : CheckConfig) (asset : Asset) : Bool :=
  check.RuntimeAssets.contains asset.Name

/-- A task runner for `check` on the state `sampleState`. -/
def sampleRunner (check : CheckConfig) : TaskRunner Unit :=
  { Task := { Timeframe := dueWindow2023, Check := check },
    Ctx := { State := sampleState, MessageBus := failingBus } }

/-- The state of the run loop before the tick of `dueWindow2023`: the clock
holds a window that ends where `dueWindow2023` starts. -/
def loopBeforeDueWindow : LoopState :=
  { interval := { Timeframe := { Start := 1700000056000000000, End := 1700000057000000000 } },
    snapshots := 0, evaluated := [], spawned := [] }

/-- The window of one second that starts at the splay of `cpu-check`, moved
by the interval of 60 s. -/
def windowAtSplayShifted : Timeframe :=
  { Start := 2041599944789666400, End := 2041599945789666400 }

/-- A run of the scheduler: a tick in which `check-cpu` is due and its task is
spawned, the call of `Stop` while the task is publishing, the next iteration
of the run loop, which returns at its `select`, the end of the task, and the
return of `Stop`. -/
def stopTrace : List Event :=
  [Event.loopWait 1700000057700000000, Event.loopSelect [checkCpu], Event.loopRange,
   Event.stopClose, Event.taskPublish 0, Event.loopRange,
   Event.loopWait 1700000059500000000, Event.loopSelect [checkCpu],
   Event.taskPublish 0, Event.taskDone 0, Event.stopReturn]

/-- The state of the scheduler at the end of `stopTrace`. -/
def drainedSystem : System :=
  { interval := { Timeframe := { Start := 1700000058000000000, End := 1700000060000000000 } },
    stopping := true,
    waitGroup := { counter := 0 },
    loop := LoopPc.exited,
    tasks := [],
    stop := StopPc.returned,
    publishes := 2,
    crashed := false }

/-! # Theorems -/

/-! ## The digests of two check names -/

set_option maxRecDepth 100000

/-- The MD5 digest of `check-cpu` is `79c5d1d4ff119d030341720454c207ce`, and its
splay is 260384143942206841. -/
theorem md5Sum_check_cpu :
    md5Sum "check-cpu" =
      [0x79, 0xc5, 0xd1, 0xd4, 0xff, 0x11, 0x9d, 0x03,
       0x03, 0x41, 0x72, 0x04, 0x54, 0xc2, 0x07, 0xce] ∧
    splayOf md5Sum "check-cpu" = 260384143942206841 := by
  decide

/-- The MD5 digest of `cpu-check` is `60d25d424738551cc7fb203c7fb4f785`, and its
splay is 2041599884789666400. -/
theorem md5Sum_cpu_check :
    md5Sum "cpu-check" =
      [0x60, 0xd2, 0x5d, 0x42, 0x47, 0x38, 0x55, 0x1c,
       0xc7, 0xfb, 0x20, 0x3c, 0x7f, 0xb4, 0xf7, 0x85] ∧
    splayOf md5Sum "cpu-check" = 2041599884789666400 := by
  decide

/-! ## Machine integers -/

theorem LittleEndianUint64_lt (b : List Nat) : LittleEndianUint64 b < 2 ^ 64 := by
  unfold LittleEndianUint64
  omega

theorem splayOf_lt (md5 : String → List Nat) (name : String) :
    splayOf md5 name < 2 ^ 64 :=
  LittleEndianUint64_lt _

theorem toInt64_of_range {x : Int} (h0 : -2 ^ 63 ≤ x) (h1 : x < 2 ^ 63) : toInt64 x = x := by
  unfold toInt64
  omega

theorem toUint64_of_range {x : Int} (h0 : 0 ≤ x) (h1 : x < 2 ^ 64) :
    toUint64 x = x.toNat := by
  unfold toUint64
  congr 1
  omega

/-! ## `Task.ShouldRun` on a positive interval -/

/-- On a positive interval and a timeframe whose ends are representable,
`ShouldRun` does not panic and tests whether the start plus the offset comes
before the end. -/
theorem ShouldRun_eq_some (md5 : String → List Nat) (task : Task)
    (hI : 0 < task.Check.Interval) (hI2 : task.Check.Interval < 2 ^ 63)
    (hS : 0 ≤ task.Timeframe.Start) (hS2 : task.Timeframe.Start < 2 ^ 63)
    (hE : -2 ^ 63 ≤ task.Timeframe.End) (hE2 : task.Timeframe.End < 2 ^ 63) :
    task.ShouldRun md5 =
      some (decide (task.Timeframe.Start
        + (shouldRunOffset (splayOf md5 task.Check.Name) task.Timeframe.Start.toNat
            task.Check.Interval.toNat : Nat) < task.Timeframe.End)) := by
  have hm : toUint64 task.Check.Interval = task.Check.Interval.toNat :=
    toUint64_of_range (le_of_lt hI) (by omega)
  have hm0 : task.Check.Interval.toNat ≠ 0 := by omega
  have ht : toUint64 (Time.UnixNano task.Timeframe.Start) = task.Timeframe.Start.toNat := by
    unfold Time.UnixNano
    rw [toInt64_of_range (by omega) hS2, toUint64_of_range hS (by omega)]
  unfold Task.ShouldRun
  simp only [hm, hm0, ht, if_false]
  have hoff : shouldRunOffset (splayOf md5 task.Check.Name) task.Timeframe.Start.toNat
      task.Check.Interval.toNat < task.Check.Interval.toNat :=
    Nat.mod_lt _ (Nat.pos_of_ne_zero hm0)
  generalize shouldRunOffset (splayOf md5 task.Check.Name) task.Timeframe.Start.toNat
      task.Check.Interval.toNat = off at hoff ⊢
  congr 1
  unfold Timeframe.Contains Time.Add Time.UnixNano Nanosecond
  rw [Int.tdiv_one, toInt64_of_range (x := (off : Int)) (by omega) (by omega),
    toInt64_of_range (by omega) hS2, toInt64_of_range hE hE2]
  rw [Bool.eq_iff_iff]
  simp only [Bool.and_eq_true, decide_eq_true_eq, ge_iff_le]
  unfold toInt64
  constructor
  · intro h; omega
  · intro h; omega

theorem emod_sum_cases {I o m : Int} (hI : 0 < I) (ho : 0 ≤ o) (ho2 : o < I) (hm : 0 ≤ m)
    (hm2 : m < I) (h : (o + m) % I = 0) : (m = 0 ∧ o = 0) ∨ (0 < m ∧ o = I - m) := by
  obtain ⟨k, hk⟩ := Int.dvd_of_emod_eq_zero h
  have hk0 : 0 ≤ k := by
    by_contra hneg
    have : k ≤ -1 := by omega
    nlinarith
  have hk1 : k ≤ 1 := by
    by_contra hneg
    have : 2 ≤ k := by omega
    nlinarith
  have hk' : k = 0 ∨ k = 1 := by omega
  rcases hk' with rfl | rfl
  · left; constructor <;> omega
  · rw [mul_one] at hk
    by_cases hm0 : m = 0
    · omega
    · right; constructor <;> omega

/-- The candidate run instant of the spec's algorithm is the start of the
timeframe plus `(hash - Start) mod interval`. -/
theorem specIsDue_eq (hash I : Int) (tf : Timeframe) (hI : 0 < I) :
    specIsDue hash I tf = decide (tf.Start + (hash - tf.Start) % I < tf.End) := by
  have ho := Int.emod_nonneg (hash - tf.Start) (ne_of_gt hI)
  have ho2 := Int.emod_lt_of_pos (hash - tf.Start) hI
  have hm := Int.emod_nonneg (tf.Start - hash % I) (ne_of_gt hI)
  have hm2 := Int.emod_lt_of_pos (tf.Start - hash % I) hI
  have hsum : ((hash - tf.Start) % I + (tf.Start - hash % I) % I) % I = 0 := by
    rw [← Int.add_emod]
    have : hash - tf.Start + (tf.Start - hash % I) = I * (hash / I) := by
      have := Int.ediv_add_emod hash I
      omega
    rw [this]
    exact Int.mul_emod_right _ _
  have hc := emod_sum_cases hI ho ho2 hm hm2 hsum
  unfold specIsDue
  rw [Bool.eq_iff_iff]
  simp only [Bool.and_eq_true, decide_eq_true_eq, ge_iff_le]
  generalize (hash - tf.Start) % I = o at *
  generalize (tf.Start - hash % I) % I = m at *
  rcases hc with ⟨h1, h2⟩ | ⟨h1, h2⟩
  · subst h1; subst h2
    simp
  · have hlt : ¬ (tf.Start ≤ tf.Start - m) := by omega
    rw [if_neg hlt]
    constructor
    · intro h; omega
    · intro h; omega

/-- The offset of `ShouldRun` is `(hash - Start) mod interval` for the
effective hash of the start. -/
theorem shouldRunOffset_cast (splay : Nat) (S I : Int) (hs : splay < 2 ^ 64) (hI : 0 < I)
    (hS : 0 ≤ S) (hS2 : S < 2 ^ 63) :
    ((shouldRunOffset splay S.toNat I.toNat : Nat) : Int) = (effectiveHash splay S - S) % I := by
  unfold shouldRunOffset effectiveHash
  have hIc : ((I.toNat : Nat) : Int) = I := Int.toNat_of_nonneg (le_of_lt hI)
  have hSc : ((S.toNat : Nat) : Int) = S := Int.toNat_of_nonneg hS
  by_cases h : S ≤ splay
  · rw [if_pos h]
    have h1 : (splay + 2 ^ 64 - S.toNat) % 2 ^ 64 = splay - S.toNat := by omega
    rw [h1, Int.natCast_mod, hIc, Nat.cast_sub (by omega), hSc]
  · rw [if_neg h]
    have h1 : (splay + 2 ^ 64 - S.toNat) % 2 ^ 64 = splay + 2 ^ 64 - S.toNat := by omega
    rw [h1, Int.natCast_mod, hIc, Nat.cast_sub (by omega), hSc]
    push_cast
    rfl

/-- The result of `ShouldRun` as a test on the effective hash. -/
theorem ShouldRun_eq_fires (md5 : String → List Nat) (task : Task)
    (hI : 0 < task.Check.Interval) (hI2 : task.Check.Interval < 2 ^ 63)
    (hS : 0 ≤ task.Timeframe.Start) (hS2 : task.Timeframe.Start < 2 ^ 63)
    (hE : -2 ^ 63 ≤ task.Timeframe.End) (hE2 : task.Timeframe.End < 2 ^ 63) :
    task.ShouldRun md5 =
      some (decide (task.Timeframe.Start
        + (effectiveHash (splayOf md5 task.Check.Name) task.Timeframe.Start
            - task.Timeframe.Start) % task.Check.Interval < task.Timeframe.End)) := by
  rw [ShouldRun_eq_some md5 task hI hI2 hS hS2 hE hE2,
    shouldRunOffset_cast _ _ _ (splayOf_lt md5 _) hI hS hS2]

/-- C1 (as amended): for an interval `0 < I < 2 ^ 63` and a timeframe with
`0 ≤ Start < End < 2 ^ 63`, `ShouldRun` returns what the spec's algorithm
returns on the effective hash: the splay while `Start ≤ splay`, and the splay
plus `2 ^ 64` when `Start > splay`, where the unsigned subtraction wraps. -/
theorem ShouldRun_eq_specIsDue (md5 : String → List Nat) (task : Task)
    (hI : 0 < task.Check.Interval) (hI2 : task.Check.Interval < 2 ^ 63)
    (hS : 0 ≤ task.Timeframe.Start) (hSE : task.Timeframe.Start < task.Timeframe.End)
    (hE : task.Timeframe.End < 2 ^ 63) :
    task.ShouldRun md5 =
      some (specIsDue (effectiveHash (splayOf md5 task.Check.Name) task.Timeframe.Start)
        task.Check.Interval task.Timeframe) := by
  rw [ShouldRun_eq_fires md5 task hI hI2 hS (by omega) (by omega) hE, specIsDue_eq _ _ _ hI]

/-- Witness of C1: the check `check-cpu` with a 60 s interval on a window of
one second in November 2023. -/
theorem ShouldRun_eq_specIsDue_witness :
    (0 < checkCpu.Interval ∧ checkCpu.Interval < 2 ^ 63 ∧ 0 ≤ window2023.Start ∧
      window2023.Start < window2023.End ∧ window2023.End < 2 ^ 63) ∧
    Task.ShouldRun md5Sum ⟨window2023, checkCpu⟩ =
      some (specIsDue (effectiveHash (splayOf md5Sum checkCpu.Name) window2023.Start)
        checkCpu.Interval window2023) :=
  ⟨by decide, ShouldRun_eq_specIsDue md5Sum ⟨window2023, checkCpu⟩
    (by decide) (by decide) (by decide) (by decide) (by decide)⟩

/-- Counterexample to C1: the check `check-cpu` (splay 260384143942206841) has a
positive interval of 60 s, and the window of one second that starts at
1700000023942206841 ns has its end after its start and contains the candidate
of the spec's algorithm with phase `splay mod interval`, which so returns
true; `ShouldRun` returns false on it. -/
theorem ShouldRun_ne_spec_phase_check_cpu :
    0 < checkCpu.Interval ∧ window2023.Start < window2023.End ∧
    specIsDue (splayOf md5Sum checkCpu.Name) checkCpu.Interval window2023 = true ∧
    Task.ShouldRun md5Sum ⟨window2023, checkCpu⟩ = some false := by
  decide

/-! ## Counting the due timeframes of a contiguous run -/

theorem ediv_eq_of_decomp {a I q r : Int} (hI : 0 < I) (h : r + I * q = a) (h0 : 0 ≤ r)
    (h1 : r < I) : a / I = q :=
  ((Int.ediv_emod_unique hI).mpr ⟨h, h0, h1⟩).1

/-- Across a timeframe no wider than the interval, the quotient
`(hash - x) / I` drops by one exactly when the timeframe is due. -/
theorem ediv_step (hash I S E : Int) (hI : 0 < I) (hSE : S < E) (hw : E - S ≤ I) :
    (hash - S) / I - (hash - E) / I = if S + (hash - S) % I < E then 1 else 0 := by
  have hd := Int.ediv_add_emod (hash - S) I
  have ho := Int.emod_nonneg (hash - S) (ne_of_gt hI)
  have ho2 := Int.emod_lt_of_pos (hash - S) hI
  generalize (hash - S) / I = q at *
  generalize (hash - S) % I = o at *
  by_cases hlt : S + o < E
  · rw [if_pos hlt]
    have : (hash - E) / I = q - 1 :=
      ediv_eq_of_decomp (r := o - (E - S) + I) hI (by rw [mul_sub, mul_one]; omega)
        (by omega) (by omega)
    omega
  · rw [if_neg hlt]
    have : (hash - E) / I = q :=
      ediv_eq_of_decomp (r := o - (E - S)) hI (by omega) (by omega) (by omega)
    omega

/-- Over a span `T ≥ 0` the quotient `(hash - x) / I` drops by `T / I` or by
`T / I + 1`. -/
theorem ediv_span (hash I S T : Int) (hI : 0 < I) :
    T / I ≤ (hash - S) / I - (hash - (S + T)) / I ∧
      (hash - S) / I - (hash - (S + T)) / I ≤ T / I + 1 := by
  have ha := Int.ediv_add_emod (hash - S) I
  have ha0 := Int.emod_nonneg (hash - S) (ne_of_gt hI)
  have ha1 := Int.emod_lt_of_pos (hash - S) hI
  have hb := Int.ediv_add_emod (hash - (S + T)) I
  have hb0 := Int.emod_nonneg (hash - (S + T)) (ne_of_gt hI)
  have hb1 := Int.emod_lt_of_pos (hash - (S + T)) hI
  have ht := Int.ediv_add_emod T I
  have ht0 := Int.emod_nonneg T (ne_of_gt hI)
  have ht1 := Int.emod_lt_of_pos T hI
  generalize (hash - S) / I = qa at *
  generalize (hash - S) % I = ra at *
  generalize (hash - (S + T)) / I = qb at *
  generalize (hash - (S + T)) % I = rb at *
  generalize T / I = k at *
  generalize T % I = t at *
  have key : I * (qa - qb - k) = rb + t - ra := by
    have : I * (qa - qb - k) = I * qa - I * qb - I * k := by ring
    omega
  constructor
  · by_contra hneg
    have : qa - qb - k ≤ -1 := by omega
    nlinarith
  · by_contra hneg
    have : 2 ≤ qa - qb - k := by omega
    nlinarith

/-- On a fixed hash, the number of due timeframes of a contiguous run is the
drop of the quotient `(hash - x) / I` across the run. -/
theorem countP_fires_telescope (hash I : Int) (hI : 0 < I) :
    ∀ (tfs : List Timeframe) (tf0 : Timeframe),
      contiguous (tf0 :: tfs) →
      (∀ tf ∈ tf0 :: tfs, tf.Start < tf.End ∧ tf.End - tf.Start ≤ I) →
      (((tf0 :: tfs).countP
          (fun tf => decide (tf.Start + (hash - tf.Start) % I < tf.End)) : Nat) : Int) =
        (hash - tf0.Start) / I - (hash - (tf0.Start + runSpan (tf0 :: tfs))) / I := by
  intro tfs
  induction tfs with
  | nil =>
    intro tf0 _ hw
    have h0 := hw tf0 (List.mem_singleton.mpr rfl)
    have hs := ediv_step hash I tf0.Start tf0.End hI h0.1 h0.2
    have hsp : tf0.Start + runSpan [tf0] = tf0.End := by
      simp [runSpan]
    rw [hsp, hs, List.countP_cons, List.countP_nil]
    by_cases hlt : tf0.Start + (hash - tf0.Start) % I < tf0.End <;> simp [hlt]
  | cons tf1 rest ih =>
    intro tf0 hc hw
    have hc' : tf1.Start = tf0.End ∧ contiguous (tf1 :: rest) := List.chain'_cons.mp hc
    have h0 := hw tf0 (List.mem_cons_self _ _)
    have hs := ediv_step hash I tf0.Start tf0.End hI h0.1 h0.2
    have hih := ih tf1 hc'.2 (fun tf htf => hw tf (List.mem_cons_of_mem _ htf))
    have hsp : tf0.Start + runSpan (tf0 :: tf1 :: rest) = tf1.Start + runSpan (tf1 :: rest) := by
      simp only [runSpan, List.map_cons, List.sum_cons]
      omega
    rw [hsp, List.countP_cons, Nat.cast_add, hih, hc'.1]
    rw [hc'.1] at hih
    by_cases hlt : tf0.Start + (hash - tf0.Start) % I < tf0.End
    · rw [if_pos hlt] at hs
      simp only [hlt, decide_True, if_true, Nat.cast_one]
      omega
    · rw [if_neg hlt] at hs
      simp only [hlt, decide_False, Bool.false_eq_true, if_false, Nat.cast_zero]
      omega

/-- On a fixed hash, the number of due timeframes of a contiguous run of
timeframes no wider than the interval is `T / I` or `T / I + 1`. -/
theorem countP_fires_bounds (hash I : Int) (hI : 0 < I) (tfs : List Timeframe)
    (hc : contiguous tfs)
    (hw : ∀ tf ∈ tfs, tf.Start < tf.End ∧ tf.End - tf.Start ≤ I) :
    runSpan tfs / I ≤
        ((tfs.countP (fun tf => decide (tf.Start + (hash - tf.Start) % I < tf.End)) : Nat) : Int) ∧
      ((tfs.countP (fun tf => decide (tf.Start + (hash - tf.Start) % I < tf.End)) : Nat) : Int)
        ≤ runSpan tfs / I + 1 := by
  cases tfs with
  | nil => simp [runSpan]
  | cons tf0 rest =>
    rw [countP_fires_telescope hash I hI rest tf0 hc hw]
    exact ediv_span hash I tf0.Start _ hI

/-- The sharp form of C2 (as amended): the count is `T / I` or `T / I + 1`. -/
theorem dueCount_bounds (md5 : String → List Nat) (check : CheckConfig)
    (tfs : List Timeframe) (hI : 0 < check.Interval) (hI2 : check.Interval < 2 ^ 63)
    (hc : contiguous tfs)
    (hw : ∀ tf ∈ tfs, tf.Start < tf.End ∧ tf.End - tf.Start ≤ check.Interval)
    (hr : ∀ tf ∈ tfs, 0 ≤ tf.Start ∧ tf.End < 2 ^ 63)
    (hside : (∀ tf ∈ tfs, tf.Start ≤ splayOf md5 check.Name) ∨
      (∀ tf ∈ tfs, (splayOf md5 check.Name : Int) < tf.Start)) :
    runSpan tfs / check.Interval ≤ (dueCount md5 check tfs : Int) ∧
      (dueCount md5 check tfs : Int) ≤ runSpan tfs / check.Interval + 1 := by
  have hcount : ∃ hash : Int, dueCount md5 check tfs =
      tfs.countP (fun tf => decide (tf.Start + (hash - tf.Start) % check.Interval < tf.End)) := by
    rcases hside with hside | hside
    · refine ⟨splayOf md5 check.Name, List.countP_congr (fun tf htf => ?_)⟩
      have h1 := hw tf htf
      have h2 := hr tf htf
      have h3 := hside tf htf
      rw [ShouldRun_eq_fires md5 ⟨tf, check⟩ hI hI2 h2.1 (by show tf.Start < _; omega)
        (by show _ ≤ tf.End; omega) h2.2]
      simp [effectiveHash, h3]
    · refine ⟨(splayOf md5 check.Name : Int) + 2 ^ 64, List.countP_congr (fun tf htf => ?_)⟩
      have h1 := hw tf htf
      have h2 := hr tf htf
      have h3 := hside tf htf
      rw [ShouldRun_eq_fires md5 ⟨tf, check⟩ hI hI2 h2.1 (by show tf.Start < _; omega)
        (by show _ ≤ tf.End; omega) h2.2]
      simp [effectiveHash, not_le.mpr h3]
  obtain ⟨hash, hh⟩ := hcount
  rw [hh]
  exact countP_fires_bounds hash check.Interval hI tfs hc hw

/-- C2 (as amended): for an interval `0 < I < 2 ^ 63` and a contiguous run of
timeframes, each with `End > Start`, of width at most `I` and with
`0 ≤ Start`, `End < 2 ^ 63`, whose starts are all at or before the splay or
all after it, the number of timeframes in which `ShouldRun` returns true is
`floor (T / I)`, give or take 1, for the span `T` of the run. -/
theorem dueCount_once_per_interval (md5 : String → List Nat) (check : CheckConfig)
    (tfs : List Timeframe) (hI : 0 < check.Interval) (hI2 : check.Interval < 2 ^ 63)
    (hc : contiguous tfs)
    (hw : ∀ tf ∈ tfs, tf.Start < tf.End ∧ tf.End - tf.Start ≤ check.Interval)
    (hr : ∀ tf ∈ tfs, 0 ≤ tf.Start ∧ tf.End < 2 ^ 63)
    (hside : (∀ tf ∈ tfs, tf.Start ≤ splayOf md5 check.Name) ∨
      (∀ tf ∈ tfs, (splayOf md5 check.Name : Int) < tf.Start)) :
    |(dueCount md5 check tfs : Int) - runSpan tfs / check.Interval| ≤ 1 := by
  have h := dueCount_bounds md5 check tfs hI hI2 hc hw hr hside
  rw [abs_le]
  constructor <;> omega

/-- Witness of C2: `check-cpu` on two contiguous windows of one second, both
after its splay. -/
theorem dueCount_once_per_interval_witness :
    (0 < checkCpu.Interval ∧ checkCpu.Interval < 2 ^ 63 ∧ contiguous run2023 ∧
      (∀ tf ∈ run2023, tf.Start < tf.End ∧ tf.End - tf.Start ≤ checkCpu.Interval) ∧
      (∀ tf ∈ run2023, 0 ≤ tf.Start ∧ tf.End < 2 ^ 63) ∧
      (∀ tf ∈ run2023, (splayOf md5Sum checkCpu.Name : Int) < tf.Start)) ∧
    |(dueCount md5Sum checkCpu run2023 : Int) - runSpan run2023 / checkCpu.Interval| ≤ 1 :=
  ⟨⟨by decide, by decide, by simp [contiguous, run2023], by decide, by decide, by decide⟩,
   dueCount_once_per_interval md5Sum checkCpu run2023 (by decide) (by decide)
    (by simp [contiguous, run2023]) (by decide) (by decide) (Or.inr (by decide))⟩

/-- Counterexample to C2: the check `cpu-check` has a positive interval of 60 s;
the two windows of `runAcrossSplay` are contiguous, each has its end after its
start and is no wider than the interval, and they cover 34 s, so that
`floor (T / I) = 0`; `ShouldRun` returns true in both. -/
theorem dueCount_two_across_splay :
    0 < cpuCheck.Interval ∧ contiguous runAcrossSplay ∧
    (∀ tf ∈ runAcrossSplay, tf.Start < tf.End ∧ tf.End - tf.Start ≤ cpuCheck.Interval) ∧
    runSpan runAcrossSplay = 34000000000 ∧
    runSpan runAcrossSplay / cpuCheck.Interval = 0 ∧
    dueCount md5Sum cpuCheck runAcrossSplay = 2 :=
  ⟨by decide, by simp [contiguous, runAcrossSplay], by decide, by decide, by decide, by decide⟩

/-! ## The example of the spec: interval 60 s, phase 23 s -/

/-- The example of the spec (section 8, item 4), for every digest function: a
check whose interval is 60 s and whose phase is 23 s is not due in
`[100.5 s, 101.5 s)`; in `[143 s, 144 s)` it is due when its splay is at least
143 s, and it is not due when its splay is smaller (the splays 23 s and
83 s), where the unsigned subtraction wraps around. -/
theorem ShouldRun_interval_60_phase_23 (md5 : String → List Nat) (check : CheckConfig)
    (h60 : check.Interval = 60000000000)
    (hp : splayOf md5 check.Name % 60000000000 = 23000000000) :
    Task.ShouldRun md5 ⟨⟨100500000000, 101500000000⟩, check⟩ = some false ∧
    (143000000000 ≤ splayOf md5 check.Name →
      Task.ShouldRun md5 ⟨⟨143000000000, 144000000000⟩, check⟩ = some true) ∧
    (splayOf md5 check.Name < 143000000000 →
      Task.ShouldRun md5 ⟨⟨143000000000, 144000000000⟩, check⟩ = some false) := by
  have hs := splayOf_lt md5 check.Name
  have e1 := ShouldRun_eq_fires md5 ⟨⟨100500000000, 101500000000⟩, check⟩
    (by simp [h60]) (by simp [h60]) (by simp) (by simp) (by simp) (by simp)
  have e2 := ShouldRun_eq_fires md5 ⟨⟨143000000000, 144000000000⟩, check⟩
    (by simp [h60]) (by simp [h60]) (by simp) (by simp) (by simp) (by simp)
  simp only [h60, effectiveHash] at e1 e2
  rw [e1, e2]
  generalize splayOf md5 check.Name = splay at hp hs
  refine ⟨?_, ?_, ?_⟩
  · simp only [Option.some.injEq, decide_eq_false_iff_not]
    split <;> omega
  · intro h
    simp only [Option.some.injEq, decide_eq_true_eq]
    split <;> omega
  · intro h
    simp only [Option.some.injEq, decide_eq_false_iff_not]
    split <;> omega

/-- The example of the spec on a real check name: `check-981948274` has the
splay 3085652843000000000, so that with an interval of 60 s its phase is 23 s;
it is not due in `[100.5 s, 101.5 s)` and is due in `[143 s, 144 s)`. -/
theorem ShouldRun_interval_60_phase_23_check :
    (phase23Check.Interval = 60000000000 ∧
      splayOf md5Sum phase23Check.Name = 3085652843000000000 ∧
      splayOf md5Sum phase23Check.Name % 60000000000 = 23000000000) ∧
    Task.ShouldRun md5Sum ⟨⟨100500000000, 101500000000⟩, phase23Check⟩ = some false ∧
    Task.ShouldRun md5Sum ⟨⟨143000000000, 144000000000⟩, phase23Check⟩ = some true :=
  ⟨by decide,
   (ShouldRun_interval_60_phase_23 md5Sum phase23Check (by decide) (by decide)).1,
   (ShouldRun_interval_60_phase_23 md5Sum phase23Check (by decide) (by decide)).2.1
     (by decide)⟩

/-! ## The interval clock -/

theorem neg_lt_tmod (a : Int) {b : Int} (hb : 0 < b) : -b < Int.tmod a b := by
  rcases le_or_lt 0 a with h | h
  · have := Int.tmod_nonneg b h
    omega
  · have h1 : Int.tmod (-a) b < b := Int.tmod_lt_of_pos _ hb
    have h2 : Int.tmod (-a) b = -(Int.tmod a b) := by
      rw [Int.tmod_def, Int.tmod_def, Int.neg_tdiv]
      ring
    omega

/-- The duration slept by `Wait` is positive and less than two seconds. -/
theorem waitDelta_pos (start : Int) : 0 < waitDelta start ∧ waitDelta start < 2000000000 := by
  unfold waitDelta SchedulerIntervalDuration Second
  have h1 := neg_lt_tmod (Time.UnixNano start) (b := 1 * 1000000000) (by decide)
  have h2 := Int.tmod_lt_of_pos (Time.UnixNano start) (b := 1 * 1000000000) (by decide)
  constructor <;> omega

/-- The duration to the next tick boundary is in `[0, 1 s)`, and the instant it
leads to is a multiple of `SchedulerInterval`. -/
theorem timeUntilNextInterval_bounds (start : Int) :
    0 ≤ timeUntilNextInterval start ∧ timeUntilNextInterval start < 1000000000 ∧
    (start + timeUntilNextInterval start) % 1000000000 = 0 ∧
    (timeUntilNextInterval start = 0 ↔ start % 1000000000 = 0) := by
  unfold timeUntilNextInterval SchedulerIntervalDuration Second
  omega

/-- For a reading of the clock from the epoch on, `Wait` sleeps one second plus
the part of the reading beyond the last whole second. -/
theorem waitDelta_of_range (now : Int) (h0 : 0 ≤ now) (h1 : now < 2 ^ 63) :
    waitDelta now = 1000000000 + now % 1000000000 := by
  have hu : Time.UnixNano now = now := toInt64_of_range (by omega) h1
  have hm : Int.tmod now (1 * 1000000000) = now % 1000000000 := by
    rw [Int.tmod_eq_emod h0 (by decide)]
    rfl
  simp only [waitDelta, SchedulerIntervalDuration, Second, hu, hm]
  omega

theorem waitStates_tile (nows : List Int) :
    ∀ (intv : SchedulerInterval) (wake : Int), clockSleeps wake nows → 0 ≤ wake →
      (∀ now ∈ nows, now < 2 ^ 63) → intv.Timeframe.End ≤ wake →
      List.Chain (fun a b : SchedulerInterval => b.Timeframe.Start = a.Timeframe.End) intv
          (waitStates intv nows) ∧
        (∀ f ∈ waitStates intv nows, f.Timeframe.Start ≤ f.Timeframe.End) ∧
        (intv.Timeframe.End < wake →
          ∀ f ∈ waitStates intv nows, f.Timeframe.Start < f.Timeframe.End) ∧
        (∀ f ∈ (waitStates intv nows).tail, f.Timeframe.Start < f.Timeframe.End) := by
  induction nows with
  | nil =>
    intro intv wake _ _ _ _
    simp [waitStates]
  | cons now rest ih =>
    intro intv wake hclock hwake hb hend
    obtain ⟨hnow, hrest⟩ := hclock
    have hnow2 : now < 2 ^ 63 := hb now (List.mem_cons_self _ _)
    have hd := waitDelta_of_range now (by omega) hnow2
    have ht := timeUntilNextInterval_bounds now
    have hm := Int.emod_nonneg now (b := 1000000000) (by decide)
    have hstart : (intv.Wait now).1.Timeframe.Start = intv.Timeframe.End := rfl
    have hEnd : (intv.Wait now).1.Timeframe.End = now + timeUntilNextInterval now := rfl
    obtain ⟨hchain, hle, hlt, _⟩ := ih (intv.Wait now).1 (now + waitDelta now) hrest
      (by omega) (fun n hn => hb n (List.mem_cons_of_mem _ hn)) (by rw [hEnd]; omega)
    have hstrict := hlt (by rw [hEnd]; omega)
    refine ⟨List.Chain.cons hstart hchain, ?_, ?_, ?_⟩
    · intro f hf
      rcases List.mem_cons.mp hf with rfl | hf
      · rw [hstart, hEnd]
        omega
      · exact hle f hf
    · intro hw f hf
      rcases List.mem_cons.mp hf with rfl | hf
      · rw [hstart, hEnd]
        omega
      · exact hstrict f hf
    · intro f hf
      exact hstrict f hf

/-- C4 (as amended): for a clock that never runs backwards, with readings from
the epoch on and within 64 bits of nanoseconds, and on which each `Wait`
sleeps for the duration it computed, the timeframes held after the calls of
`Wait` that follow `Start` tile time: the first starts at the reading of
`Start`, each one starts where the one before it ends, and the end of each is
at or after its start.  The end is strictly after the start in every
timeframe after the first, and in the first too unless the first `Wait` reads
the very instant that `Start` read and that instant is a tick boundary. -/
theorem wait_timeframes_tile (t0 : Int) (nows : List Int) (h : clockSleeps t0 nows)
    (h0 : 0 ≤ t0) (hb : ∀ now ∈ nows, now < 2 ^ 63) :
    (∀ f, (waitStates (SchedulerInterval.Start t0) nows).head? = some f →
      f.Timeframe.Start = t0) ∧
    (∀ (i : Nat) (hi : i + 1 < (waitStates (SchedulerInterval.Start t0) nows).length),
      ((waitStates (SchedulerInterval.Start t0) nows)[i + 1]).Timeframe.Start =
        ((waitStates (SchedulerInterval.Start t0) nows)[i]).Timeframe.End) ∧
    (∀ f ∈ waitStates (SchedulerInterval.Start t0) nows,
      f.Timeframe.Start ≤ f.Timeframe.End) ∧
    (∀ f ∈ (waitStates (SchedulerInterval.Start t0) nows).tail,
      f.Timeframe.Start < f.Timeframe.End) ∧
    ((t0 % SchedulerIntervalDuration ≠ 0 ∨ nows.head? ≠ some t0) →
      ∀ f ∈ waitStates (SchedulerInterval.Start t0) nows,
        f.Timeframe.Start < f.Timeframe.End) := by
  obtain ⟨hchain, hle, _, htail⟩ :=
    waitStates_tile nows (SchedulerInterval.Start t0) t0 h h0 hb (le_refl _)
  refine ⟨?_, ?_, hle, htail, ?_⟩
  · intro f hf
    cases nows with
    | nil => simp [waitStates] at hf
    | cons now rest =>
      simp only [waitStates, List.head?_cons, Option.some.injEq] at hf
      rw [← hf]
      rfl
  · have hc2 : List.Chain' (fun a b : SchedulerInterval => b.Timeframe.Start = a.Timeframe.End)
        (waitStates (SchedulerInterval.Start t0) nows) :=
      List.Chain'.tail (l := SchedulerInterval.Start t0 :: _) hchain
    have hc' := List.chain'_iff_get.mp hc2
    intro i hi
    have := hc' i (by omega)
    simpa using this
  · intro hcase f hf
    cases nows with
    | nil => simp [waitStates] at hf
    | cons now rest =>
      simp only [waitStates] at hf htail
      rcases List.mem_cons.mp hf with rfl | hf
      · have hnow : t0 ≤ now := h.1
        have ht := timeUntilNextInterval_bounds now
        have hstart : ((SchedulerInterval.Start t0).Wait now).1.Timeframe.Start = t0 := rfl
        have hEnd : ((SchedulerInterval.Start t0).Wait now).1.Timeframe.End =
            now + timeUntilNextInterval now := rfl
        rw [hstart, hEnd]
        rcases hcase with hc | hc
        · simp only [SchedulerIntervalDuration, Second] at hc
          by_cases heq : now = t0
          · subst heq
            have : timeUntilNextInterval now ≠ 0 := fun h0 => hc (ht.2.2.2.mp h0)
            omega
          · omega
        · have hne : now ≠ t0 := by
            intro heq
            apply hc
            simp [heq]
          omega
      · exact htail f (by simpa using hf)

/-- Witness of C4: `Start` at 1700000000.0 s, then `Wait` at 1700000000.25 s
(which sleeps 1.25 s, until 1700000001.5 s) and at 1700000001.6 s: the
windows end at the tick boundaries 1700000001 s and 1700000002 s. -/
theorem wait_timeframes_tile_witness :
    (clockSleeps 1700000000000000000 [1700000000250000000, 1700000001600000000] ∧
      (0 : Int) ≤ 1700000000000000000 ∧
      (∀ now ∈ [(1700000000250000000 : Int), 1700000001600000000], now < 2 ^ 63)) ∧
    waitStates (SchedulerInterval.Start 1700000000000000000)
        [1700000000250000000, 1700000001600000000] =
      [⟨⟨1700000000000000000, 1700000001000000000⟩⟩,
       ⟨⟨1700000001000000000, 1700000002000000000⟩⟩] ∧
    ((∀ f, (waitStates (SchedulerInterval.Start 1700000000000000000)
        [1700000000250000000, 1700000001600000000]).head? = some f →
      f.Timeframe.Start = 1700000000000000000) ∧
    (∀ (i : Nat)
        (hi : i + 1 < (waitStates (SchedulerInterval.Start 1700000000000000000)
          [1700000000250000000, 1700000001600000000]).length),
      ((waitStates (SchedulerInterval.Start 1700000000000000000)
          [1700000000250000000, 1700000001600000000])[i + 1]).Timeframe.Start =
        ((waitStates (SchedulerInterval.Start 1700000000000000000)
          [1700000000250000000, 1700000001600000000])[i]).Timeframe.End) ∧
    (∀ f ∈ waitStates (SchedulerInterval.Start 1700000000000000000)
        [1700000000250000000, 1700000001600000000],
      f.Timeframe.Start ≤ f.Timeframe.End) ∧
    (∀ f ∈ (waitStates (SchedulerInterval.Start 1700000000000000000)
        [1700000000250000000, 1700000001600000000]).tail,
      f.Timeframe.Start < f.Timeframe.End) ∧
    ((1700000000000000000 % SchedulerIntervalDuration ≠ 0 ∨
        [(1700000000250000000 : Int), 1700000001600000000].head? ≠ some 1700000000000000000) →
      ∀ f ∈ waitStates (SchedulerInterval.Start 1700000000000000000)
          [1700000000250000000, 1700000001600000000],
        f.Timeframe.Start < f.Timeframe.End)) :=
  ⟨⟨⟨by decide, by decide, trivial⟩, by decide, by decide⟩, by decide,
   wait_timeframes_tile 1700000000000000000 [1700000000250000000, 1700000001600000000]
    ⟨by decide, by decide, trivial⟩ (by decide) (by decide)⟩

/-- Counterexample to C4: `Start` at 1700000000.0 s, a tick boundary, and a
first `Wait` that reads the same instant: the clock has not run backwards,
and the timeframe held after the `Wait` starts and ends at that instant, so
that its end is not strictly after its start. -/
theorem wait_first_window_zero_width :
    clockSleeps 1700000000000000000 [1700000000000000000] ∧
    waitStates (SchedulerInterval.Start 1700000000000000000) [1700000000000000000] =
      [⟨⟨1700000000000000000, 1700000000000000000⟩⟩] ∧
    ¬ (∀ f ∈ waitStates (SchedulerInterval.Start 1700000000000000000)
        [1700000000000000000],
      f.Timeframe.Start < f.Timeframe.End) :=
  ⟨⟨by decide, trivial⟩, by decide, by decide⟩

/-! ## Non-positive intervals -/

/-- The method `ShouldRun` panics exactly when the interval, converted to
`uint64`, is zero. -/
theorem ShouldRun_eq_none_iff (md5 : String → List Nat) (task : Task) :
    task.ShouldRun md5 = none ↔ toUint64 task.Check.Interval = 0 := by
  unfold Task.ShouldRun
  by_cases h : toUint64 task.Check.Interval = 0 <;> simp [h]

/-- On a negative interval (a Go `int`) `ShouldRun` does not panic: the modulus
`uint64(interval)` is `2 ^ 64 + interval`. -/
theorem ShouldRun_negative_interval (md5 : String → List Nat) (task : Task)
    (h0 : task.Check.Interval < 0) (h1 : -2 ^ 63 ≤ task.Check.Interval) :
    toUint64 task.Check.Interval = (2 ^ 64 + task.Check.Interval).toNat ∧
    task.ShouldRun md5 ≠ none := by
  have hu : toUint64 task.Check.Interval = (2 ^ 64 + task.Check.Interval).toNat := by
    unfold toUint64
    congr 1
    omega
  refine ⟨hu, fun h => ?_⟩
  have := (ShouldRun_eq_none_iff md5 task).mp h
  omega

/-- C5, the code at the failing inputs: on a check whose interval is zero
`ShouldRun` panics (division by zero), whatever the digest and the timeframe;
and on `cpu-check` with the interval `-1` it returns true for the window that
starts at the splay of the check. -/
theorem ShouldRun_nonpositive_interval :
    (∀ (md5 : String → List Nat) (tf : Timeframe),
      Task.ShouldRun md5 ⟨tf, zeroIntervalCheck⟩ = none) ∧
    negativeIntervalCheck.Interval ≤ 0 ∧
    Task.ShouldRun md5Sum ⟨windowAtSplay, negativeIntervalCheck⟩ = some true :=
  ⟨fun md5 tf => (ShouldRun_eq_none_iff md5 ⟨tf, zeroIntervalCheck⟩).mpr
      (show toUint64 zeroIntervalCheck.Interval = 0 by decide),
   by decide, by decide⟩

/-! ## Publishing a check request -/

theorem foldl_publishStep_calls {β : Type} (SubscriptionTopic : String → String → String)
    (bus : MessageBus β) (check : CheckConfig) (request : CheckRequest) (subs : List String) :
    ∀ st : PublishState β,
      (subs.foldl (publishStep SubscriptionTopic bus check request) st).calls =
        st.calls ++ subs.map (fun sub => (SubscriptionTopic check.Organization sub, request)) := by
  induction subs with
  | nil => intro st; simp
  | cons sub rest ih =>
    intro st
    rw [List.foldl_cons, ih]
    simp [publishStep]

theorem foldl_publishStep_err {β : Type} (SubscriptionTopic : String → String → String)
    (bus : MessageBus β) (check : CheckConfig) (request : CheckRequest) (subs : List String) :
    ∀ st : PublishState β, st.err = none →
      (subs.foldl (publishStep SubscriptionTopic bus check request) st).err = none := by
  induction subs with
  | nil => intro st h; simpa using h
  | cons sub rest ih =>
    intro st h
    rw [List.foldl_cons]
    apply ih
    simp [publishStep, h]

theorem foldl_publishStep_bus {β : Type} (SubscriptionTopic : String → String → String)
    (bus : MessageBus β) (check : CheckConfig) (request : CheckRequest) (subs : List String) :
    ∀ st : PublishState β,
      (subs.foldl (publishStep SubscriptionTopic bus check request) st).bus =
        subs.foldl
          (fun b sub => (bus.Publish b (SubscriptionTopic check.Organization sub) request).1)
          st.bus := by
  induction subs with
  | nil => intro st; rfl
  | cons sub rest ih =>
    intro st
    rw [List.foldl_cons, List.foldl_cons, ih]
    rfl

theorem foldl_recordingBus (outcome : List (String × CheckRequest) → String → Option String)
    (topicOf : String → String) (request : CheckRequest) (subs : List String) :
    ∀ received : List (String × CheckRequest),
      subs.foldl (fun b sub => ((recordingBus outcome).Publish b (topicOf sub) request).1)
          received =
        received ++ subs.map (fun sub => (topicOf sub, request)) := by
  induction subs with
  | nil => intro received; simp
  | cons sub rest ih =>
    intro received
    rw [List.foldl_cons, ih]
    simp [recordingBus]

/-- C6: whatever the results of `Publish`, `publishRequest` calls `Publish` once
for each subscription of the check, in the declared order, the call for
subscription `s` being on the topic `SubscriptionTopic(org, s)` with the
request given.  For any bus, the bus ends in the state that these calls
bring it to, one after the other; a bus that records the calls it receives,
with results in any pattern of successes and failures, has received exactly
these `n` calls after those it had received before; and the calls listed by
the loop are the same. -/
theorem publishRequest_calls {β : Type} (SubscriptionTopic : String → String → String)
    (run : TaskRunner β) (b : β) (request : CheckRequest)
    (outcome : List (String × CheckRequest) → String → Option String)
    (task : Task) (state : SchedulerState) (received : List (String × CheckRequest)) :
    (run.publishRequest SubscriptionTopic b request).bus =
      run.Task.Check.Subscriptions.foldl
        (fun bus sub =>
          (run.Ctx.MessageBus.Publish bus
            (SubscriptionTopic run.Task.Check.Organization sub) request).1)
        b ∧
    (TaskRunner.publishRequest SubscriptionTopic
        { Task := task, Ctx := { State := state, MessageBus := recordingBus outcome } }
        received request).bus =
      received ++ task.Check.Subscriptions.map
        (fun sub => (SubscriptionTopic task.Check.Organization sub, request)) ∧
    (run.publishRequest SubscriptionTopic b request).calls =
      run.Task.Check.Subscriptions.map
        (fun sub => (SubscriptionTopic run.Task.Check.Organization sub, request)) ∧
    (run.publishRequest SubscriptionTopic b request).calls.length =
      run.Task.Check.Subscriptions.length := by
  have h := foldl_publishStep_calls SubscriptionTopic run.Ctx.MessageBus run.Task.Check request
    run.Task.Check.Subscriptions { bus := b, calls := [], err := none }
  have hb := foldl_publishStep_bus SubscriptionTopic run.Ctx.MessageBus run.Task.Check request
    run.Task.Check.Subscriptions { bus := b, calls := [], err := none }
  have hr := foldl_publishStep_bus SubscriptionTopic (recordingBus outcome) task.Check request
    task.Check.Subscriptions { bus := received, calls := [], err := none }
  refine ⟨hb, ?_, ?_, ?_⟩
  · unfold TaskRunner.publishRequest
    rw [hr]
    exact foldl_recordingBus outcome (SubscriptionTopic task.Check.Organization) request
      task.Check.Subscriptions received
  · unfold TaskRunner.publishRequest
    simp only [h, List.nil_append]
  · unfold TaskRunner.publishRequest
    simp only [h, List.nil_append, List.length_map]

/-- On a bus that records its calls and on which the first `Publish` fails, the
bus has received the calls for both subscriptions of `cpu-check`, in order. -/
theorem publishRequest_after_failure :
    (recordingBus (fun received _ => if received.length = 0 then some "failed" else none)).Publish
        [] "default:linux" { Config := cpuCheck, ExpandedAssets := [] } =
      ([("default:linux", { Config := cpuCheck, ExpandedAssets := [] })], some "failed") ∧
    (TaskRunner.publishRequest sampleTopic
        { Task := { Timeframe := windowAtSplay, Check := cpuCheck },
          Ctx := { State := { Checks := [cpuCheck], GetAssetsInOrg := fun _ => [] },
                   MessageBus := recordingBus
                     (fun received _ => if received.length = 0 then some "failed" else none) } }
        [] { Config := cpuCheck, ExpandedAssets := [] }).bus =
      [("default:linux", { Config := cpuCheck, ExpandedAssets := [] }),
       ("default:prod", { Config := cpuCheck, ExpandedAssets := [] })] := by
  decide

/-- Whatever the bus does, `publishRequest` returns `nil`. -/
theorem publishRequest_err_none {β : Type} (SubscriptionTopic : String → String → String)
    (run : TaskRunner β) (b : β) (request : CheckRequest) :
    (run.publishRequest SubscriptionTopic b request).err = none :=
  foldl_publishStep_err SubscriptionTopic run.Ctx.MessageBus run.Task.Check request
    run.Task.Check.Subscriptions _ rfl

/-- C7, the code at the failing input: on a bus on which every `Publish` fails,
`Run` for `cpu-check` (subscriptions `linux` and `prod`) makes its two calls of
`Publish`, each of which returns an error, and returns `nil`. -/
theorem Run_failing_bus_returns_nil :
    (∀ (b : Unit) (topic : String) (request : CheckRequest),
      (failingBus.Publish b topic request).2 = some "message bus is closed") ∧
    ((failingRunner.Run sampleTopic (fun _ _ => true) ()).calls.map Prod.fst =
      ["default:linux", "default:prod"]) ∧
    (failingRunner.Run sampleTopic (fun _ _ => true) ()).err = none :=
  ⟨fun _ _ _ => rfl, by decide, by decide⟩

/-! ## One tick of the run loop -/

theorem tickChecks_no_panic (md5 : String → List Nat) (tf : Timeframe)
    (checks : List CheckConfig) :
    ∀ spawned : List Task,
      (∀ check ∈ checks, Task.ShouldRun md5 { Check := check, Timeframe := tf } ≠ none) →
      tickChecks md5 tf checks spawned =
        { spawned := spawned ++ dueTasks md5 tf checks, panicked := false } := by
  induction checks with
  | nil => intro spawned _; simp [tickChecks, dueTasks]
  | cons check rest ih =>
    intro spawned h
    have h0 := h check (List.mem_cons_self _ _)
    have hrest := fun c hc => h c (List.mem_cons_of_mem _ hc)
    unfold tickChecks
    cases hsr : Task.ShouldRun md5 { Check := check, Timeframe := tf } with
    | none => exact absurd hsr h0
    | some due =>
      cases due with
      | true =>
        simp only [ih _ hrest]
        simp [dueTasks, hsr]
      | false =>
        simp only [ih _ hrest]
        simp [dueTasks, hsr]

/-- A panic of `ShouldRun` ends the loop: the tasks spawned are those of the due
checks before the check that panics, and no later check is evaluated. -/
theorem tickChecks_panic (md5 : String → List Nat) (tf : Timeframe)
    (before after : List CheckConfig) (check : CheckConfig)
    (hb : ∀ c ∈ before, Task.ShouldRun md5 { Check := c, Timeframe := tf } ≠ none)
    (hc : Task.ShouldRun md5 { Check := check, Timeframe := tf } = none) :
    tickChecks md5 tf (before ++ check :: after) [] =
      { spawned := dueTasks md5 tf before, panicked := true } := by
  have key : ∀ (l : List CheckConfig) (spawned : List Task),
      (∀ c ∈ l, Task.ShouldRun md5 { Check := c, Timeframe := tf } ≠ none) →
      tickChecks md5 tf (l ++ check :: after) spawned =
        { spawned := spawned ++ dueTasks md5 tf l, panicked := true } := by
    intro l
    induction l with
    | nil =>
      intro spawned _
      simp [tickChecks, dueTasks, hc]
    | cons c rest ih =>
      intro spawned h
      have h0 := h c (List.mem_cons_self _ _)
      have hrest := fun x hx => h x (List.mem_cons_of_mem _ hx)
      rw [List.cons_append]
      unfold tickChecks
      cases hsr : Task.ShouldRun md5 { Check := c, Timeframe := tf } with
      | none => exact absurd hsr h0
      | some due =>
        cases due with
        | true =>
          simp only [ih _ hrest]
          simp [dueTasks, hsr]
        | false =>
          simp only [ih _ hrest]
          simp [dueTasks, hsr]
  simpa using key before [] hb

/-- Within one tick in which `ShouldRun` panics for no check of the snapshot's
list, the loop ends without a panic and the tasks spawned are exactly those
of the due checks, in the order of the list. -/
theorem tick_spawns_due_checks (md5 : String → List Nat) (tf : Timeframe)
    (checks : List CheckConfig)
    (h : ∀ check ∈ checks,
      Task.ShouldRun md5 { Check := check, Timeframe := tf } ≠ none) :
    tickChecks md5 tf checks [] =
      { spawned := dueTasks md5 tf checks, panicked := false } := by
  simpa using tickChecks_no_panic md5 tf checks [] h

/-- An instance of `tick_spawns_due_checks`: a tick over `check-cpu` and
`cpu-check`, of which the first is due. -/
theorem tick_spawns_due_checks_witness :
    (∀ check ∈ [checkCpu, cpuCheck],
      Task.ShouldRun md5Sum { Check := check, Timeframe := dueWindow2023 } ≠ none) ∧
    tickChecks md5Sum dueWindow2023 [checkCpu, cpuCheck] [] =
      { spawned := dueTasks md5Sum dueWindow2023 [checkCpu, cpuCheck], panicked := false } ∧
    dueTasks md5Sum dueWindow2023 [checkCpu, cpuCheck] =
      [{ Check := checkCpu, Timeframe := dueWindow2023 }] :=
  ⟨by decide,
   tick_spawns_due_checks md5Sum dueWindow2023 [checkCpu, cpuCheck] (by decide),
   by decide⟩

/-- C8, the code at the failing input: in a tick over a check whose interval is
zero followed by `check-cpu`, which is due in the tick's timeframe,
`ShouldRun` panics on the first check; the fault is not isolated: the loop
ends in the panic and spawns no task, so that the due check is not
dispatched. -/
theorem tick_panic_skips_due_check :
    Task.ShouldRun md5Sum { Check := checkCpu, Timeframe := dueWindow2023 } = some true ∧
    dueTasks md5Sum dueWindow2023 [zeroIntervalCheck, checkCpu] =
      [{ Check := checkCpu, Timeframe := dueWindow2023 }] ∧
    tickChecks md5Sum dueWindow2023 [zeroIntervalCheck, checkCpu] [] =
      { spawned := [], panicked := true } := by
  decide

/-! ## Purity of `Task.ShouldRun` -/

/-- The result of `ShouldRun` is determined by the name and the interval of the
check and the start and the end of the timeframe: two tasks that agree on
these four values get the same result. -/
theorem ShouldRun_pure (md5 : String → List Nat) (task1 task2 : Task)
    (hname : task1.Check.Name = task2.Check.Name)
    (hint : task1.Check.Interval = task2.Check.Interval)
    (hstart : task1.Timeframe.Start = task2.Timeframe.Start)
    (hend : task1.Timeframe.End = task2.Timeframe.End) :
    task1.ShouldRun md5 = task2.ShouldRun md5 := by
  unfold Task.ShouldRun Timeframe.Contains
  rw [hname, hint, hstart, hend]

/-- An instance of `ShouldRun_pure`: `check-cpu` in two organizations, with
different subscriptions and assets, on the same timeframe. -/
theorem ShouldRun_pure_witness :
    checkCpu ≠ checkCpuElsewhere ∧
    Task.ShouldRun md5Sum ⟨dueWindow2023, checkCpu⟩ =
      Task.ShouldRun md5Sum ⟨dueWindow2023, checkCpuElsewhere⟩ :=
  ⟨by decide,
   ShouldRun_pure md5Sum ⟨dueWindow2023, checkCpu⟩ ⟨dueWindow2023, checkCpuElsewhere⟩
    rfl rfl rfl rfl⟩

/-! ## The end of the window computed by `Wait` -/

/-- For a reading of the clock from the epoch on, `Wait` sleeps one second plus
the part of the reading beyond the last whole second, so that the sleep ends
one second or more after the reading, and on a multiple of
`SchedulerInterval` only when twice that part is zero or one second; the end
of the window is the next tick boundary at or after the reading. -/
theorem Wait_sleep (intv : SchedulerInterval) (now : Int) (h0 : 0 ≤ now) (h1 : now < 2 ^ 63) :
    (intv.Wait now).2 = 1000000000 + now % 1000000000 ∧
    now + 1000000000 ≤ now + (intv.Wait now).2 ∧
    ((now + (intv.Wait now).2) % 1000000000 = 0 ↔
      now % 1000000000 = 0 ∨ now % 1000000000 = 500000000) ∧
    now ≤ (intv.Wait now).1.Timeframe.End ∧
    (intv.Wait now).1.Timeframe.End < now + 1000000000 ∧
    (intv.Wait now).1.Timeframe.End % 1000000000 = 0 := by
  have hd : (intv.Wait now).2 = 1000000000 + now % 1000000000 :=
    waitDelta_of_range now h0 h1
  have hE : (intv.Wait now).1.Timeframe.End = now + timeUntilNextInterval now := rfl
  have ht := timeUntilNextInterval_bounds now
  rw [hd, hE]
  refine ⟨rfl, ?_, ?_, ?_, ?_, ?_⟩ <;> omega

/-- C10, the code at the failing input: `Wait` called at 1700000000.25 s
computes the duration 1.25 s, so that it stops sleeping at 1700000001.5 s;
that instant is not a multiple of `SchedulerInterval` and is not before the
reading plus `SchedulerInterval`.  The next tick boundary at or after the
reading, the end of the window, is 1700000001.0 s. -/
theorem Wait_end_off_tick_boundary :
    ((SchedulerInterval.Start 1700000000000000000).Wait 1700000000250000000).2
      = 1250000000 ∧
    1700000000250000000
      + ((SchedulerInterval.Start 1700000000000000000).Wait 1700000000250000000).2
      = 1700000001500000000 ∧
    ((SchedulerInterval.Start 1700000000000000000).Wait
      1700000000250000000).1.Timeframe.End = 1700000001000000000 ∧
    (1700000001500000000 : Int) % SchedulerIntervalDuration = 500000000 ∧
    ¬ ((1700000001500000000 : Int) < 1700000000250000000 + SchedulerIntervalDuration) := by
  decide

/-! ## Building the check request -/

/-- C11: for a check whose list of runtime assets is empty, `buildRequest` makes
no call of the state's asset lookup and returns a request whose `Config` is
the check and whose `ExpandedAssets` is empty. -/
theorem buildRequest_no_assets {β : Type}
    (IsAssetIsRelevantToCheck : CheckConfig → Asset → Bool) (run : TaskRunner β)
    (h : run.Task.Check.RuntimeAssets = []) :
    (run.buildRequest IsAssetIsRelevantToCheck).lookups = [] ∧
    (run.buildRequest IsAssetIsRelevantToCheck).request.Config = run.Task.Check ∧
    (run.buildRequest IsAssetIsRelevantToCheck).request.ExpandedAssets = [] := by
  unfold TaskRunner.buildRequest
  simp [h]

/-- Witness of C11: `check-cpu`, which declares no runtime asset, on a state
whose organization has three assets. -/
theorem buildRequest_no_assets_witness :
    (sampleRunner checkCpu).Task.Check.RuntimeAssets = [] ∧
    sampleState.GetAssetsInOrg checkCpu.Organization ≠ [] ∧
    ((sampleRunner checkCpu).buildRequest declaredAsset).lookups = [] ∧
    ((sampleRunner checkCpu).buildRequest declaredAsset).request.Config =
      (sampleRunner checkCpu).Task.Check ∧
    ((sampleRunner checkCpu).buildRequest declaredAsset).request.ExpandedAssets = [] :=
  ⟨rfl, by decide, buildRequest_no_assets declaredAsset (sampleRunner checkCpu) rfl⟩

theorem foldl_expand (p : Asset → Bool) (assets : List Asset) :
    ∀ req : CheckRequest,
      assets.foldl
        (fun req asset =>
          if p asset then { req with ExpandedAssets := req.ExpandedAssets ++ [asset] } else req)
        req =
      { req with ExpandedAssets := req.ExpandedAssets ++ assets.filter p } := by
  induction assets with
  | nil => intro req; simp
  | cons asset rest ih =>
    intro req
    rw [List.foldl_cons, ih]
    by_cases hp : p asset <;> simp [hp, List.filter_cons]

/-- C12: for a check that declares at least one runtime asset, `buildRequest`
calls the asset lookup once, for the organization of the check, and returns a
request whose `Config` is the check and whose `ExpandedAssets` is the list of
the assets returned for which `IsAssetIsRelevantToCheck` holds, in their
order and each as often as it was returned. -/
theorem buildRequest_expands_relevant {β : Type}
    (IsAssetIsRelevantToCheck : CheckConfig → Asset → Bool) (run : TaskRunner β)
    (h : run.Task.Check.RuntimeAssets ≠ []) :
    (run.buildRequest IsAssetIsRelevantToCheck).request.Config = run.Task.Check ∧
    (run.buildRequest IsAssetIsRelevantToCheck).request.ExpandedAssets =
      (run.Ctx.State.GetAssetsInOrg run.Task.Check.Organization).filter
        (IsAssetIsRelevantToCheck run.Task.Check) ∧
    (run.buildRequest IsAssetIsRelevantToCheck).lookups = [run.Task.Check.Organization] := by
  have hlen : ¬ run.Task.Check.RuntimeAssets.length = 0 := by
    intro h0
    exact h (List.length_eq_zero.mp h0)
  unfold TaskRunner.buildRequest
  simp only [hlen, if_false]
  rw [foldl_expand]
  simp

/-- Witness of C12: `check-cpu` declaring the assets `ruby` and `plugins`, on a
state whose organization has the assets `ruby`, `python` and `plugins`. -/
theorem buildRequest_expands_relevant_witness :
    (sampleRunner checkCpuWithAssets).Task.Check.RuntimeAssets ≠ [] ∧
    ((sampleRunner checkCpuWithAssets).buildRequest declaredAsset).request.ExpandedAssets =
      [{ Name := "ruby" }, { Name := "plugins" }] ∧
    ((sampleRunner checkCpuWithAssets).buildRequest declaredAsset).request.Config =
      (sampleRunner checkCpuWithAssets).Task.Check ∧
    ((sampleRunner checkCpuWithAssets).buildRequest declaredAsset).request.ExpandedAssets =
      ((sampleRunner checkCpuWithAssets).Ctx.State.GetAssetsInOrg
        (sampleRunner checkCpuWithAssets).Task.Check.Organization).filter
        (declaredAsset (sampleRunner checkCpuWithAssets).Task.Check) ∧
    ((sampleRunner checkCpuWithAssets).buildRequest declaredAsset).lookups =
      [(sampleRunner checkCpuWithAssets).Task.Check.Organization] :=
  ⟨by decide, by decide,
   buildRequest_expands_relevant declaredAsset (sampleRunner checkCpuWithAssets) (by decide)⟩

/-! ## One iteration of the run loop -/

theorem tickEvaluated_no_panic (md5 : String → List Nat) (tf : Timeframe)
    (checks : List CheckConfig)
    (h : ∀ check ∈ checks, Task.ShouldRun md5 { Check := check, Timeframe := tf } ≠ none) :
    tickEvaluated md5 tf checks = checks := by
  induction checks with
  | nil => rfl
  | cons check rest ih =>
    have h0 := h check (List.mem_cons_self _ _)
    have hrest := ih (fun c hc => h c (List.mem_cons_of_mem _ hc))
    unfold tickEvaluated
    cases hsr : Task.ShouldRun md5 { Check := check, Timeframe := tf } with
    | none => exact absurd hsr h0
    | some due => simp [hrest]

/-- In an iteration in which the channel `stopping` is open and `ShouldRun`
panics for no check of the snapshot, the loop takes one snapshot, calls
`ShouldRun` on every check and spawns the tasks of the due checks, each with
the timeframe of the tick, and goes on. -/
theorem runLoopIteration_no_panic (md5 : String → List Nat) (st : LoopState) (now : Int)
    (state : SchedulerState)
    (h : ∀ check ∈ state.Checks,
      Task.ShouldRun md5
        { Check := check, Timeframe := (st.interval.Wait now).1.Timeframe } ≠ none) :
    runLoopIteration md5 st now false state =
      ({ interval := (st.interval.Wait now).1,
         snapshots := st.snapshots + 1,
         evaluated := st.evaluated ++ state.Checks,
         spawned := st.spawned ++
           dueTasks md5 (st.interval.Wait now).1.Timeframe state.Checks },
       LoopStatus.running) := by
  unfold runLoopIteration
  simp [tickChecks_no_panic md5 _ state.Checks [] h, tickEvaluated_no_panic md5 _ state.Checks h]

/-- C13, the code at the failing input: in the tick of `dueWindow2023` (`Wait`
reads 1700000057.2 s), with the channel `stopping` open and a snapshot whose checks are a check with the
interval zero and `check-cpu`, `ShouldRun` is true for `check-cpu`, and the
loop takes its snapshot, panics on the first check and spawns no task. -/
theorem runLoopIteration_panic_spawns_nothing :
    sampleState.Checks = [zeroIntervalCheck, checkCpu] ∧
    Task.ShouldRun md5Sum { Check := checkCpu, Timeframe := dueWindow2023 } = some true ∧
    runLoopIteration md5Sum loopBeforeDueWindow 1700000057200000000 false sampleState =
      ({ interval := { Timeframe := dueWindow2023 },
         snapshots := 1,
         evaluated := [zeroIntervalCheck],
         spawned := [] },
       LoopStatus.panicked) := by
  decide

/-- C16: an iteration of the run loop that reaches its `select` when the
channel `stopping` is closed returns: it takes no snapshot, calls `ShouldRun`
on no check and spawns no task; and the loop runs no iteration after it. -/
theorem runLoop_stops_on_signal (md5 : String → List Nat) (st : LoopState) (now : Int)
    (state : SchedulerState) (rest : List (Int × Bool × SchedulerState)) :
    runLoopIteration md5 st now true state =
      ({ interval := (st.interval.Wait now).1,
         snapshots := st.snapshots,
         evaluated := st.evaluated,
         spawned := st.spawned },
       LoopStatus.returned) ∧
    runLoop md5 st ((now, true, state) :: rest) =
      ({ interval := (st.interval.Wait now).1,
         snapshots := st.snapshots,
         evaluated := st.evaluated,
         spawned := st.spawned },
       LoopStatus.returned) := by
  have h : runLoopIteration md5 st now true state =
      ({ interval := (st.interval.Wait now).1,
         snapshots := st.snapshots,
         evaluated := st.evaluated,
         spawned := st.spawned },
       LoopStatus.returned) := by
    unfold runLoopIteration
    simp
  refine ⟨h, ?_⟩
  unfold runLoop
  rw [h]

/-! ## `Timeframe.Contains` -/

/-- C17: `Contains(t)` is true exactly when `Start ≤ t < End` as nanoseconds
since the epoch (`UnixNano`, which leaves an instant within 64 bits as it
is): the start is contained when the end is after it, the end never is, and
a timeframe of width zero contains no instant. -/
theorem Contains_iff (frame : Timeframe) (t : Int) :
    (frame.Contains t = true ↔
      Time.UnixNano frame.Start ≤ Time.UnixNano t ∧ Time.UnixNano t < Time.UnixNano frame.End) ∧
    ((-2 ^ 63 ≤ frame.Start ∧ frame.Start < 2 ^ 63) → (-2 ^ 63 ≤ frame.End ∧ frame.End < 2 ^ 63) →
      (-2 ^ 63 ≤ t ∧ t < 2 ^ 63) →
      (frame.Contains t = true ↔ frame.Start ≤ t ∧ t < frame.End)) ∧
    (Time.UnixNano frame.Start < Time.UnixNano frame.End → frame.Contains frame.Start = true) ∧
    frame.Contains frame.End = false ∧
    (frame.Start = frame.End → frame.Contains t = false) := by
  have key : frame.Contains t = true ↔
      Time.UnixNano frame.Start ≤ Time.UnixNano t ∧
        Time.UnixNano t < Time.UnixNano frame.End := by
    unfold Timeframe.Contains
    simp only [Bool.and_eq_true, decide_eq_true_eq, ge_iff_le]
  refine ⟨key, ?_, ?_, ?_, ?_⟩
  · intro hS hE ht
    rw [key]
    unfold Time.UnixNano
    rw [toInt64_of_range hS.1 hS.2, toInt64_of_range hE.1 hE.2, toInt64_of_range ht.1 ht.2]
  · intro h
    unfold Timeframe.Contains
    simp [h]
  · unfold Timeframe.Contains
    simp
  · intro h
    unfold Timeframe.Contains
    rw [h]
    simp only [Bool.and_eq_false_iff, decide_eq_false_iff_not, ge_iff_le, not_le, not_lt]
    exact lt_or_le _ _

/-! ## The duration until the next run -/

/-- When the interval is not zero, `ShouldRun` tests whether the timeframe
contains its start moved by `timeUntilNextRun`. -/
theorem ShouldRun_eq_Contains (md5 : String → List Nat) (task : Task)
    (h : toUint64 task.Check.Interval ≠ 0) :
    task.ShouldRun md5 =
      some (task.Timeframe.Contains
        (Time.Add task.Timeframe.Start (task.timeUntilNextRun md5))) := by
  unfold Task.ShouldRun Task.timeUntilNextRun
  simp [h]

/-- C18: for an interval `0 < I < 2 ^ 63` (a Go `int`) and a timeframe with
`Start ≤ End`, both within 64 bits of nanoseconds, `ShouldRun` returns true
exactly when `timeUntilNextRun` is strictly less than `End - Start`; and
`timeUntilNextRun` is in `[0, I)`. -/
theorem ShouldRun_iff_timeUntilNextRun_lt (md5 : String → List Nat) (task : Task)
    (hI : 0 < task.Check.Interval) (hI2 : task.Check.Interval < 2 ^ 63)
    (hS : -2 ^ 63 ≤ task.Timeframe.Start) (hSE : task.Timeframe.Start ≤ task.Timeframe.End)
    (hE : task.Timeframe.End < 2 ^ 63) :
    task.ShouldRun md5 =
      some (decide (task.timeUntilNextRun md5 < task.Timeframe.End - task.Timeframe.Start)) ∧
    0 ≤ task.timeUntilNextRun md5 ∧
    task.timeUntilNextRun md5 < task.Check.Interval := by
  have hm : toUint64 task.Check.Interval = task.Check.Interval.toNat :=
    toUint64_of_range (le_of_lt hI) (by omega)
  have hm0 : task.Check.Interval.toNat ≠ 0 := by omega
  have hoff : shouldRunOffset (splayOf md5 task.Check.Name)
      (toUint64 (Time.UnixNano task.Timeframe.Start)) task.Check.Interval.toNat
        < task.Check.Interval.toNat :=
    Nat.mod_lt _ (Nat.pos_of_ne_zero hm0)
  unfold Task.ShouldRun Task.timeUntilNextRun
  simp only [hm, hm0, if_false]
  generalize shouldRunOffset (splayOf md5 task.Check.Name)
      (toUint64 (Time.UnixNano task.Timeframe.Start)) task.Check.Interval.toNat = off at hoff ⊢
  unfold Nanosecond
  rw [Int.tdiv_one, toInt64_of_range (x := (off : Int)) (by omega) (by omega)]
  refine ⟨?_, by omega, by omega⟩
  congr 1
  unfold Timeframe.Contains Time.Add Time.UnixNano
  rw [toInt64_of_range hS (by omega), toInt64_of_range (by omega) hE]
  rw [Bool.eq_iff_iff]
  simp only [Bool.and_eq_true, decide_eq_true_eq, ge_iff_le]
  unfold toInt64
  constructor
  · intro h; omega
  · intro h; omega

/-- Witness of C18: `check-cpu` on `dueWindow2023`, where the duration until
the next run is 651758457 ns. -/
theorem ShouldRun_iff_timeUntilNextRun_lt_witness :
    Task.timeUntilNextRun md5Sum ⟨dueWindow2023, checkCpu⟩ = 651758457 ∧
    (Task.ShouldRun md5Sum ⟨dueWindow2023, checkCpu⟩ =
      some (decide (Task.timeUntilNextRun md5Sum ⟨dueWindow2023, checkCpu⟩
        < dueWindow2023.End - dueWindow2023.Start)) ∧
    0 ≤ Task.timeUntilNextRun md5Sum ⟨dueWindow2023, checkCpu⟩ ∧
    Task.timeUntilNextRun md5Sum ⟨dueWindow2023, checkCpu⟩ < checkCpu.Interval) :=
  ⟨by decide,
   ShouldRun_iff_timeUntilNextRun_lt md5Sum ⟨dueWindow2023, checkCpu⟩
    (by decide) (by decide) (by decide) (by decide) (by decide)⟩

/-! ## Periodicity -/

/-- C19 (as amended): for an interval `0 < I < 2 ^ 63` and a timeframe
`[S, E)` with `0 ≤ S`, such that the shifted timeframe `[S + I, E + I)` is
within 64 bits of nanoseconds and the splay is not in `[S, S + I)` (either
`S + I ≤ splay`, or `splay < S`, where the unsigned subtraction wraps for
both), `ShouldRun` returns the same on `[S + I, E + I)` as on `[S, E)`. -/
theorem ShouldRun_periodic (md5 : String → List Nat) (check : CheckConfig) (S E : Int)
    (hI : 0 < check.Interval) (hI2 : check.Interval < 2 ^ 63)
    (hS : 0 ≤ S) (hS2 : S + check.Interval < 2 ^ 63)
    (hE : -2 ^ 63 ≤ E) (hE2 : E + check.Interval < 2 ^ 63)
    (hside : S + check.Interval ≤ splayOf md5 check.Name ∨ (splayOf md5 check.Name : Int) < S) :
    Task.ShouldRun md5 ⟨⟨S + check.Interval, E + check.Interval⟩, check⟩ =
      Task.ShouldRun md5 ⟨⟨S, E⟩, check⟩ := by
  have e1 := ShouldRun_eq_fires md5 ⟨⟨S, E⟩, check⟩ hI hI2 hS
    (by show S < _; omega) (by show _ ≤ E; omega) (by show E < _; omega)
  have e2 := ShouldRun_eq_fires md5 ⟨⟨S + check.Interval, E + check.Interval⟩, check⟩ hI hI2
    (by show 0 ≤ S + _; omega) hS2 (by show _ ≤ E + _; omega) hE2
  rw [e1, e2]
  simp only
  have hh : effectiveHash (splayOf md5 check.Name) (S + check.Interval) =
      effectiveHash (splayOf md5 check.Name) S := by
    unfold effectiveHash
    rcases hside with h | h
    · rw [if_pos h, if_pos (by omega)]
    · rw [if_neg (by omega), if_neg (by omega)]
  rw [hh]
  generalize effectiveHash (splayOf md5 check.Name) S = hash
  have hmod : (hash - (S + check.Interval)) % check.Interval = (hash - S) % check.Interval := by
    have : hash - (S + check.Interval) = hash - S - check.Interval := by ring
    rw [this, Int.emod_sub_cancel]
  rw [hmod]
  congr 1
  rw [decide_eq_decide]
  constructor <;> intro h <;> omega

/-- Witness of C19: `check-cpu`, whose splay is before both windows, on
`dueWindow2023` and on that window one interval later. -/
theorem ShouldRun_periodic_witness :
    (splayOf md5Sum checkCpu.Name : Int) < dueWindow2023.Start ∧
    Task.ShouldRun md5Sum
        ⟨⟨dueWindow2023.Start + checkCpu.Interval, dueWindow2023.End + checkCpu.Interval⟩,
          checkCpu⟩ =
      Task.ShouldRun md5Sum ⟨⟨dueWindow2023.Start, dueWindow2023.End⟩, checkCpu⟩ :=
  ⟨by decide,
   ShouldRun_periodic md5Sum checkCpu dueWindow2023.Start dueWindow2023.End
    (by decide) (by decide) (by decide) (by decide) (by decide) (by decide)
    (Or.inr (by decide))⟩

/-- Counterexample to C19: `cpu-check`, with an interval of 60 s, is due in the
window of one second that starts at its splay, and is not due in that window
moved by the interval. -/
theorem ShouldRun_not_periodic_across_splay :
    0 < cpuCheck.Interval ∧
    windowAtSplayShifted.Start = windowAtSplay.Start + cpuCheck.Interval ∧
    windowAtSplayShifted.End = windowAtSplay.End + cpuCheck.Interval ∧
    Task.ShouldRun md5Sum ⟨windowAtSplay, cpuCheck⟩ = some true ∧
    Task.ShouldRun md5Sum ⟨windowAtSplayShifted, cpuCheck⟩ = some false := by
  decide

/-! ## The fields of the check that `ShouldRun` reads -/

/-- C20: two checks with the same `Name` and the same `Interval` are due in
the same timeframes, whatever their other fields. -/
theorem ShouldRun_same_name_interval (md5 : String → List Nat) (check1 check2 : CheckConfig)
    (hname : check1.Name = check2.Name) (hint : check1.Interval = check2.Interval)
    (tf : Timeframe) :
    Task.ShouldRun md5 ⟨tf, check1⟩ = Task.ShouldRun md5 ⟨tf, check2⟩ := by
  unfold Task.ShouldRun
  simp only [hname, hint]

/-- Witness of C20: `check-cpu` in the organizations `default` and `acme`, with
different subscriptions and runtime assets, on `window2023`. -/
theorem ShouldRun_same_name_interval_witness :
    (checkCpu.Organization ≠ checkCpuElsewhere.Organization ∧
      checkCpu.Subscriptions ≠ checkCpuElsewhere.Subscriptions ∧
      checkCpu.RuntimeAssets ≠ checkCpuElsewhere.RuntimeAssets) ∧
    Task.ShouldRun md5Sum ⟨window2023, checkCpu⟩ =
      Task.ShouldRun md5Sum ⟨window2023, checkCpuElsewhere⟩ :=
  ⟨by decide, ShouldRun_same_name_interval md5Sum checkCpu checkCpuElsewhere rfl rfl window2023⟩

/-! ## The wait group -/

/-- C14, the code at the failing input: `DoTaskAsync` adds one to the counter;
when `Run` returns, with or without an error, the goroutine brings the
counter back to its prior value, and when `Run` panics the counter stays one
above it, whereas the goroutine of `Scheduler.Start`, which defers
`wg.Done()`, takes one off the counter however it ends. -/
theorem DoTaskAsync_counter (wg : WaitGroup) :
    (DoTaskAsync wg).counter = wg.counter + 1 ∧
    (∀ err : Option String,
      (DoTaskAsync.goroutine (RunOutcome.returned err) (DoTaskAsync wg)).counter = wg.counter) ∧
    (DoTaskAsync.goroutine RunOutcome.panicked (DoTaskAsync wg)).counter = wg.counter + 1 ∧
    (Scheduler.Start.goroutineEnd wg).counter = wg.counter - 1 := by
  simp only [DoTaskAsync, DoTaskAsync.goroutine, Scheduler.Start.goroutineEnd, WaitGroup.Done,
    WaitGroup.Add]
  refine ⟨trivial, fun _ => by omega, trivial, by omega⟩

/-! ## Stopping the scheduler -/

theorem System.init_invariant (now : Int) : (System.init now).Invariant := by
  constructor
  · intro _
    simp [System.init]
  · intro h
    simp [System.init] at h

/-- Once `Stop` has returned, the run loop has gone and no task is running. -/
theorem System.Invariant.drained {s : System} (hinv : s.Invariant)
    (hs : s.stop = StopPc.returned) :
    s.crashed = false ∧ s.waitGroup.counter = 0 ∧ s.loop = LoopPc.exited ∧ s.tasks = [] := by
  obtain ⟨hc, h0⟩ := hinv.2 hs
  have h1 := hinv.1 hc
  rw [h0] at h1
  by_cases hl : s.loop = LoopPc.exited
  · rw [if_pos hl] at h1
    refine ⟨hc, h0, hl, ?_⟩
    apply List.length_eq_zero.mp
    omega
  · rw [if_neg hl] at h1
    omega

/-- Once `Stop` has returned, no thread can take a step. -/
theorem System.Invariant.terminal (md5 : String → List Nat) {s : System} (hinv : s.Invariant)
    (hs : s.stop = StopPc.returned) (e : Event) : System.step md5 s e = none := by
  obtain ⟨hc, _, hl, ht⟩ := hinv.drained hs
  cases e <;> simp [System.step, hc, hl, ht, hs]

theorem System.step_invariant (md5 : String → List Nat) {s s2 : System} (e : Event)
    (hinv : s.Invariant) (hstep : System.step md5 s e = some s2) : s2.Invariant := by
  have hnr : s.stop ≠ StopPc.returned := by
    intro hs
    rw [hinv.terminal md5 hs e] at hstep
    exact Option.noConfusion hstep
  have hcr : s.crashed = false := by
    cases hc : s.crashed with
    | false => rfl
    | true => cases e <;> simp [System.step, hc] at hstep
  have hcount := hinv.1 hcr
  cases e with
  | loopWait now =>
    cases hl : s.loop <;> simp [System.step, hcr, hl] at hstep
    subst hstep
    refine ⟨fun _ => ?_, fun h => absurd h hnr⟩
    simp [hl] at hcount ⊢
    exact hcount
  | loopSelect checks =>
    cases hl : s.loop <;> simp [System.step, hcr, hl] at hstep
    by_cases hst : s.stopping = true
    · simp [hst] at hstep
      subst hstep
      refine ⟨fun _ => ?_, fun h => absurd h hnr⟩
      simp [hl, Scheduler.Start.goroutineEnd, WaitGroup.Done, WaitGroup.Add] at hcount ⊢
      omega
    · simp [hst] at hstep
      subst hstep
      refine ⟨fun _ => ?_, fun h => absurd h hnr⟩
      simp [hl] at hcount ⊢
      exact hcount
  | loopRange =>
    cases hl : s.loop with
    | waiting => simp [System.step, hcr, hl] at hstep
    | selecting => simp [System.step, hcr, hl] at hstep
    | exited => simp [System.step, hcr, hl] at hstep
    | ranging checks =>
      cases checks with
      | nil =>
        simp [System.step, hcr, hl] at hstep
        subst hstep
        refine ⟨fun _ => ?_, fun h => absurd h hnr⟩
        simp [hl] at hcount ⊢
        exact hcount
      | cons check rest =>
        cases hsr : Task.ShouldRun md5 { Check := check, Timeframe := s.interval.Timeframe } with
        | none =>
          simp [System.step, hcr, hl, hsr] at hstep
          subst hstep
          exact ⟨fun h => by simp at h, fun h => absurd h hnr⟩
        | some due =>
          cases due with
          | true =>
            simp [System.step, hcr, hl, hsr] at hstep
            subst hstep
            refine ⟨fun _ => ?_, fun h => absurd h hnr⟩
            simp [hl, DoTaskAsync, WaitGroup.Add] at hcount ⊢
            omega
          | false =>
            simp [System.step, hcr, hl, hsr] at hstep
            subst hstep
            refine ⟨fun _ => ?_, fun h => absurd h hnr⟩
            simp [hl] at hcount ⊢
            exact hcount
  | taskPublish i =>
    cases hg : s.tasks[i]? with
    | none => simp [System.step, hcr, hg] at hstep
    | some task =>
      obtain ⟨check, remaining⟩ := task
      cases remaining with
      | nil => simp [System.step, hcr, hg] at hstep
      | cons sub rest =>
        simp [System.step, hcr, hg] at hstep
        subst hstep
        refine ⟨fun _ => ?_, fun h => absurd h hnr⟩
        simp only [List.length_set]
        exact hcount
  | taskDone i =>
    cases hg : s.tasks[i]? with
    | none => simp [System.step, hcr, hg] at hstep
    | some task =>
      obtain ⟨check, remaining⟩ := task
      cases remaining with
      | cons sub rest => simp [System.step, hcr, hg] at hstep
      | nil =>
        simp [System.step, hcr, hg] at hstep
        subst hstep
        have hi : i < s.tasks.length := by
          by_contra hge
          rw [List.getElem?_eq_none (by omega)] at hg
          exact Option.noConfusion hg
        refine ⟨fun _ => ?_, fun h => absurd h hnr⟩
        simp only [List.length_eraseIdx, hi, if_true, DoTaskAsync.goroutine, WaitGroup.Done,
          WaitGroup.Add]
        omega
  | taskPanic i =>
    cases hg : s.tasks[i]? with
    | none => simp [System.step, hcr, hg] at hstep
    | some task =>
      simp [System.step, hcr, hg] at hstep
      subst hstep
      exact ⟨fun h => by simp at h, fun h => absurd h hnr⟩
  | stopClose =>
    cases hp : s.stop <;> simp [System.step, hcr, hp] at hstep
    subst hstep
    refine ⟨fun _ => hcount, fun h => ?_⟩
    simp at h
  | stopReturn =>
    cases hp : s.stop <;> simp [System.step, hcr, hp] at hstep
    obtain ⟨h0, rfl⟩ := hstep
    exact ⟨fun _ => hcount, fun _ => ⟨rfl, h0⟩⟩

theorem System.run_invariant (md5 : String → List Nat) (events : List Event) :
    ∀ {s s2 : System}, s.Invariant → System.run md5 s events = some s2 → s2.Invariant := by
  induction events with
  | nil =>
    intro s s2 hinv hrun
    simp only [System.run, Option.some.injEq] at hrun
    exact hrun ▸ hinv
  | cons e rest ih =>
    intro s s2 hinv hrun
    unfold System.run at hrun
    cases hstep : System.step md5 s e with
    | none => simp [hstep] at hrun
    | some s1 =>
      simp only [hstep] at hrun
      exact ih (System.step_invariant md5 e hinv hstep) hrun

theorem System.Reachable.invariant {md5 : String → List Nat} {s : System}
    (h : System.Reachable md5 s) : s.Invariant := by
  obtain ⟨now, events, hrun⟩ := h
  exact System.run_invariant md5 events (System.init_invariant now) hrun

/-- C15: in every state that the scheduler can reach after `Start` in which
`Stop` has returned, the counter of the wait group is zero, the run loop has
exited and every spawned task has finished; no thread can take a step any
more, so that whatever follows makes no call of `Publish` and leaves the
counter at zero. -/
theorem Stop_returns_drained (md5 : String → List Nat) (s : System)
    (hr : System.Reachable md5 s) (hs : s.stop = StopPc.returned) :
    s.waitGroup.counter = 0 ∧ s.loop = LoopPc.exited ∧ s.tasks = [] ∧
    (∀ e : Event, System.step md5 s e = none) ∧
    (∀ (events : List Event) (s2 : System), System.run md5 s events = some s2 →
      s2.publishes = s.publishes ∧ s2.waitGroup.counter = 0) := by
  have hinv := hr.invariant
  obtain ⟨_, h0, hl, ht⟩ := hinv.drained hs
  refine ⟨h0, hl, ht, hinv.terminal md5 hs, ?_⟩
  intro events s2 hrun
  cases events with
  | nil =>
    simp only [System.run, Option.some.injEq] at hrun
    subst hrun
    exact ⟨rfl, h0⟩
  | cons e rest =>
    unfold System.run at hrun
    rw [hinv.terminal md5 hs e] at hrun
    exact Option.noConfusion hrun

/-- Witness of C15: the state at the end of `stopTrace`, in which `Stop` has
returned after two calls of `Publish`; and `Stop` cannot return while the
task of the trace is still running. -/
theorem Stop_returns_drained_witness :
    System.run md5Sum (System.init 1700000056000000000) stopTrace = some drainedSystem ∧
    System.run md5Sum (System.init 1700000056000000000)
      (stopTrace.take 9 ++ [Event.stopReturn]) = none ∧
    drainedSystem.stop = StopPc.returned ∧
    (drainedSystem.waitGroup.counter = 0 ∧ drainedSystem.loop = LoopPc.exited ∧
      drainedSystem.tasks = [] ∧
      (∀ e : Event, System.step md5Sum drainedSystem e = none) ∧
      (∀ (events : List Event) (s2 : System),
        System.run md5Sum drainedSystem events = some s2 →
        s2.publishes = drainedSystem.publishes ∧ s2.waitGroup.counter = 0)) :=
  ⟨by decide, by decide, rfl,
   Stop_returns_drained md5Sum drainedSystem
    ⟨1700000056000000000, stopTrace, by decide⟩ rfl⟩

end Schedulerd
